import Mathlib

/-!
# obama.c — the Swiss Ephemeris birth-chart example

A shallow embedding of `main` of `src/astro/native/swisseph/obama.c`.

The program is a linear driver: it converts a fixed date to a Julian day, asks
the Swiss Ephemeris library for the position of the bodies
`SE_SUN .. SE_TRUE_NODE` and for the house cusps, and prints what it got with
`printf`. The functions it calls are not part of the program; they are a
parameter of the embedding (`Lib`), with a state of their own, and every theorem
quantifies over them. `main` keeps no record of what it does. What it does is
observed from the outside: `spy E` is the library `E` with a recorder in front
of it, which notes every call it receives, with the arguments it received and
the results it gave back, and `record` is what the recorder holds when `main`
has run against it.
-/

namespace Obama

/-! ## Values -/

/-- A C `double`: the 64 bits of its IEEE 754 encoding, as a number (sign,
11 bits of exponent, 52 bits of mantissa). `main` does no arithmetic on
doubles: it hands them from literals and from the library to the library and to
`printf`. -/
structure Double where
  bits : Nat

instance : DecidableEq Double :=
  fun a b => decidable_of_iff (a.bits = b.bits)
    ⟨fun h => by cases a; cases b; cases h; rfl, fun h => by rw [h]⟩

/-- The integer nearest to `p / q`, the even one of two that are equally near. -/
def roundHalfEven (p q : Nat) : Nat :=
  if q < 2 * (p % q) ∨ (2 * (p % q) = q ∧ (p / q) % 2 = 1) then p / q + 1 else p / q

/-- The number `a / b * 2 ^ k`, rounded to an integer. -/
def scaledRound (a b : Nat) (k : Int) : Nat :=
  if 0 ≤ k then roundHalfEven (a * 2 ^ k.toNat) b else roundHalfEven a (b * 2 ^ (-k).toNat)

/-- The position of the highest 1 bit of `n` (0 for `n < 2`), found in at most
`fuel` halvings; `fuel = n` is enough. -/
def ilog2 : Nat → Nat → Nat
  | 0, _ => 0
  | fuel + 1, n => if n < 2 then 0 else ilog2 fuel (n / 2) + 1

/-- The bits of the double nearest to `a / b` (round to nearest, ties to even),
which is how a C compiler reads a decimal literal. -/
def ofRatio (a b : Nat) : Nat :=
  if a = 0 then 0
  else
    let e0 : Int := (ilog2 a a : Int) - (ilog2 b b : Int)
    let ge : Bool :=
      if 0 ≤ e0 then decide (b * 2 ^ e0.toNat ≤ a) else decide (b ≤ a * 2 ^ (-e0).toNat)
    let e : Int := if ge then e0 else e0 - 1
    if e < -1022 then scaledRound a b 1074
    else
      let m := scaledRound a b (52 - e)
      let e1 : Int := if m = 2 ^ 53 then e + 1 else e
      let m1 : Nat := if m = 2 ^ 53 then 2 ^ 52 else m
      if 1023 < e1 then 2047 * 2 ^ 52
      else (e1 + 1023).toNat * 2 ^ 52 + (m1 - 2 ^ 52)

instance : OfScientific Double where
  ofScientific m s e := if s then ⟨ofRatio m (10 ^ e)⟩ else ⟨ofRatio (m * 10 ^ e) 1⟩

instance : Neg Double where
  neg d := if d.bits < 2 ^ 63 then ⟨d.bits + 2 ^ 63⟩ else ⟨d.bits - 2 ^ 63⟩

/-- The terminating NUL of a C string. -/
def NUL : Char := Char.ofNat 0

/-- The C string held in a `char` buffer: the characters before the first NUL,
which is what `%s` prints. A buffer is the list of the characters it holds, from
index 0 on; a list without a NUL stands for a string that ends where the list
ends. The size `AS_MAXCH` of `serr` and `spname` (a macro of `swephexp.h`) does
not enter. -/
def cstr (buf : List Char) : List Char :=
  buf.takeWhile (fun c => c != NUL)

/-- Reading `a[i]` of a `double a[n]` with an `int` index (the index is in
range at every read `main` does; the double 0.0 stands for a read outside the
array). -/
def rd {n : Nat} (a : Fin n → Double) (i : Int) : Double :=
  if h : 0 ≤ i ∧ i.toNat < n then a ⟨i.toNat, h.2⟩ else ⟨0⟩

/-! ## The header `swephexp.h` -/

/-- The macros of `swephexp.h` that `main` uses and whose values the source of
`obama.c` does not tell; the header is not part of the sources, so they are a
parameter. -/
structure Swephexp where
  OK : Int
  ERR : Int
  SE_GREG_CAL : Int
  SEFLG_SWIEPH : Int
  SEFLG_SPEED : Int

/-- Modelled from the spec: the macro `SE_SUN` of `swephexp.h`, a header that
is not among the sources. The value is the one the comment at obama.c:55 gives
(`SE_SUN .. SE_TRUE_NODE` "have the consecutive numbers 0..11"); it agrees with
the twelve body-position rows of the spec. -/
def SE_SUN : Int := 0

/-- Modelled from the spec: the macro `SE_TRUE_NODE` of `swephexp.h`, a header
that is not among the sources. The value is the one the comment at obama.c:55
gives (`SE_SUN .. SE_TRUE_NODE` "have the consecutive numbers 0..11"); it agrees
with the twelve body-position rows of the spec. -/
def SE_TRUE_NODE : Int := 11

/-! ## The functions `main` calls -/

/-- An argument value of a `printf` call. -/
inductive Arg where
  | int (i : Int)
  | dbl (d : Double)
  | str (s : List Char)
deriving DecidableEq

/-- What `swe_calc_ut` leaves behind: its return code, the buffers `xx` and
`serr` as they are after the call, and the new state. -/
structure CalcUt (σ : Type) where
  iret : Int
  xx : Fin 6 → Double
  serr : List Char
  lib : σ

/-- What `swe_houses_ex` leaves behind: its return code, the buffers `cusps`
and `ascmc` as they are after the call, and the new state. -/
structure HousesEx (σ : Type) where
  iret : Int
  cusps : Fin 13 → Double
  ascmc : Fin 10 → Double
  lib : σ

/-- The functions `main` calls, over a state `σ` of the world outside `main`:
the five functions of the Swiss Ephemeris, and `printf`. A function with an
out-buffer gets the buffer's contents before the call and gives its contents
after the call, so a call may write all of it, part of it or nothing. `printf`
gets its format string and the values of its arguments (a `%s` argument as the
C string it points to). -/
structure Lib (σ : Type) where
  swe_julday : σ → Int → Int → Int → Double → Int → Double × σ
  swe_get_planet_name : σ → Int → List Char → List Char × σ
  swe_calc_ut : σ → Double → Int → Int → (Fin 6 → Double) → List Char → CalcUt σ
  swe_houses_ex : σ → Double → Int → Double → Double → Int →
    (Fin 13 → Double) → (Fin 10 → Double) → HousesEx σ
  swe_house_name : σ → Int → List Char × σ
  printf : σ → String → List Arg → σ

/-! ## The program -/

/-- The contents of the local buffers of `main` when it starts; C leaves them
indeterminate. (`i`, `ipl`, `iret` and `iflag` are assigned before they are
read.) -/
structure Locals where
  xx : Fin 6 → Double
  cusps : Fin 13 → Double
  ascmc : Fin 10 → Double
  serr : List Char
  spname : List Char

/-- The state of a run: the state of the world outside `main`, and the local
buffers. -/
structure Frame (σ : Type) where
  lib : σ
  xx : Fin 6 → Double
  cusps : Fin 13 → Double
  ascmc : Fin 10 → Double
  serr : List Char
  spname : List Char

/-- A call of `printf`. -/
def printf {σ : Type} (E : Lib σ) (fmt : String) (args : List Arg) (f : Frame σ) : Frame σ :=
  { f with lib := E.printf f.lib fmt args }

/-- The loop `for (i = lo; i <= hi; i++) body`, for a body that does not
assign the loop variable. -/
def forUpTo {S : Type} (i hi : Int) (body : Int → S → S) (s : S) : S :=
  if i ≤ hi then forUpTo (i + 1) hi body (body i s) else s
termination_by (hi + 1 - i).toNat
decreasing_by omega

def iday : Int := 5
def imon : Int := 8
def iyar : Int := 1961
def dhour : Double := 5.4
def dlon : Double := -157.86666667
def dlat : Double := 21.3
def ihsy : Int := 'P'.toNat

def fmtDate : String := "Date and time in UT: day=%d mon=%d year=%d decimal hour=%lf\n"
def fmtGeo : String := "\tdecimal geographical coordinates lat=%lf, long=%lf\n"
def fmtJulday : String := "\nJulday of birth = %lf\n"
def fmtHead : String := "Planet\tecl.long.\tecl.lat.\tdist. AU\tspeed deg/day\n"
def fmtName : String := "%s\t"
def fmtIret : String := "iret=%d, %s\n"
def fmtRow : String := "%10.6lf\t%9.6lf\t%9.6lf\t%9.6lf\n"
def fmtHouseErr : String := "Unknown problem with house calculation, iret=%d\n"
def fmtAsc : String := "\nAscendant %10.6lf\tMC %10.6lf\n"
def fmtHsys : String := "House system %s\n"
def fmtCusp : String := "cusp %2d\t%10.6lf\n"
def fmtEnd : String := "\n"

/-- The body of the planet loop (obama.c:59-66). -/
def planetBody {σ : Type} (E : Lib σ) (jd_ut : Double) (iflag : Int) (ipl : Int)
    (f : Frame σ) : Frame σ :=
  let nm := E.swe_get_planet_name f.lib ipl f.spname
  let f := { f with lib := nm.2, spname := nm.1 }
  let f := { f with spname := f.spname.set 7 NUL }
  let f := printf E fmtName [Arg.str (cstr f.spname)] f
  let r := E.swe_calc_ut f.lib jd_ut ipl iflag f.xx f.serr
  let f := { f with lib := r.lib, xx := r.xx, serr := r.serr }
  let f := if r.iret < 0 then printf E fmtIret [Arg.int r.iret, Arg.str (cstr f.serr)] f else f
  printf E fmtRow [Arg.dbl (f.xx 0), Arg.dbl (f.xx 1), Arg.dbl (f.xx 2), Arg.dbl (f.xx 3)] f

/-- The body of the cusp loop (obama.c:78). -/
def cuspBody {σ : Type} (E : Lib σ) (i : Int) (f : Frame σ) : Frame σ :=
  printf E fmtCusp [Arg.int i, Arg.dbl (rd f.cusps i)] f

/-- How a run of `main` ends: the value it returns and its last state. -/
structure Run (σ : Type) where
  exit : Int
  final : Frame σ

/-- The planets of `main` (obama.c:55-67): the table head and the planet loop. -/
def planets {σ : Type} (H : Swephexp) (E : Lib σ) (jd_ut : Double) (f : Frame σ) :
    Frame σ :=
  let iflag := Int.lor H.SEFLG_SWIEPH H.SEFLG_SPEED
  let f := printf E fmtHead [] f
  forUpTo SE_SUN SE_TRUE_NODE (planetBody E jd_ut iflag) f

/-- The houses of `main` (obama.c:68-81): the house computation, and either the
failure message and `return ERR`, or the ascendant, the cusps and `return OK`. -/
def houses {σ : Type} (H : Swephexp) (E : Lib σ) (jd_ut : Double) (f : Frame σ) :
    Run σ :=
  let iflag := 0
  let h := E.swe_houses_ex f.lib jd_ut iflag dlat dlon ihsy f.cusps f.ascmc
  let f := { f with lib := h.lib, cusps := h.cusps, ascmc := h.ascmc }
  if h.iret < 0 then
    ⟨H.ERR, printf E fmtHouseErr [Arg.int h.iret] f⟩
  else
    let f := printf E fmtAsc [Arg.dbl (f.ascmc 0), Arg.dbl (f.ascmc 1)] f
    let hn := E.swe_house_name f.lib ihsy
    let f := { f with lib := hn.2 }
    let f := printf E fmtHsys [Arg.str (cstr hn.1)] f
    let f := forUpTo 1 12 (cuspBody E) f
    let f := printf E fmtEnd [] f
    ⟨H.OK, f⟩

/-- The function `main` of obama.c, run against the functions `E` in the state
`s`, with `stk` in its local buffers: the input lines and the Julian day
(obama.c:35-54), then the planets, then the houses. -/
def main {σ : Type} (H : Swephexp) (E : Lib σ) (s : σ) (stk : Locals)
    (_argc : Int) (_argv : List String) : Run σ :=
  let f : Frame σ := ⟨s, stk.xx, stk.cusps, stk.ascmc, stk.serr, stk.spname⟩
  let f := printf E fmtDate [Arg.int iday, Arg.int imon, Arg.int iyar, Arg.dbl dhour] f
  let f := printf E fmtGeo [Arg.dbl dlat, Arg.dbl dlon] f
  let jd := E.swe_julday f.lib iyar imon iday dhour H.SE_GREG_CAL
  let jd_ut := jd.1
  let f := { f with lib := jd.2 }
  let f := printf E fmtJulday [Arg.dbl jd_ut] f
  let f := planets H E jd_ut f
  houses H E jd_ut f

/-! ## The recorder -/

/-- One call as the world outside `main` sees it: the function, the arguments
it received, and the results it gave back (for a function with out-buffers, the
buffers as they are after the call). -/
inductive Event where
  | swe_julday (year month day : Int) (hour : Double) (gregflag : Int) (ret : Double)
  | swe_get_planet_name (ipl : Int) (spname : List Char)
  | swe_calc_ut (tjd_ut : Double) (ipl iflag : Int) (iret : Int) (xx : Fin 6 → Double)
      (serr : List Char)
  | swe_houses_ex (tjd_ut : Double) (iflag : Int) (geolat geolon : Double) (hsys : Int)
      (iret : Int) (cusps : Fin 13 → Double) (ascmc : Fin 10 → Double)
  | swe_house_name (hsys : Int) (ret : List Char)
  | printf (fmt : String) (args : List Arg)
deriving DecidableEq

/-- The functions `E` with a recorder in front of them: every call is handed
to `E` as it is received, what `E` gives back is given back unchanged, and the
call is added to the record, with the arguments received and the results of
`E`. -/
def spy {σ : Type} (E : Lib σ) : Lib (σ × List Event) where
  swe_julday w year month day hour gregflag :=
    ((E.swe_julday w.1 year month day hour gregflag).1,
      (E.swe_julday w.1 year month day hour gregflag).2,
      w.2 ++ [Event.swe_julday year month day hour gregflag
        (E.swe_julday w.1 year month day hour gregflag).1])
  swe_get_planet_name w ipl spname :=
    ((E.swe_get_planet_name w.1 ipl spname).1,
      (E.swe_get_planet_name w.1 ipl spname).2,
      w.2 ++ [Event.swe_get_planet_name ipl (E.swe_get_planet_name w.1 ipl spname).1])
  swe_calc_ut w tjd_ut ipl iflag xx serr :=
    { iret := (E.swe_calc_ut w.1 tjd_ut ipl iflag xx serr).iret
      xx := (E.swe_calc_ut w.1 tjd_ut ipl iflag xx serr).xx
      serr := (E.swe_calc_ut w.1 tjd_ut ipl iflag xx serr).serr
      lib := ((E.swe_calc_ut w.1 tjd_ut ipl iflag xx serr).lib,
        w.2 ++ [Event.swe_calc_ut tjd_ut ipl iflag
          (E.swe_calc_ut w.1 tjd_ut ipl iflag xx serr).iret
          (E.swe_calc_ut w.1 tjd_ut ipl iflag xx serr).xx
          (E.swe_calc_ut w.1 tjd_ut ipl iflag xx serr).serr]) }
  swe_houses_ex w tjd_ut iflag geolat geolon hsys cusps ascmc :=
    { iret := (E.swe_houses_ex w.1 tjd_ut iflag geolat geolon hsys cusps ascmc).iret
      cusps := (E.swe_houses_ex w.1 tjd_ut iflag geolat geolon hsys cusps ascmc).cusps
      ascmc := (E.swe_houses_ex w.1 tjd_ut iflag geolat geolon hsys cusps ascmc).ascmc
      lib := ((E.swe_houses_ex w.1 tjd_ut iflag geolat geolon hsys cusps ascmc).lib,
        w.2 ++ [Event.swe_houses_ex tjd_ut iflag geolat geolon hsys
          (E.swe_houses_ex w.1 tjd_ut iflag geolat geolon hsys cusps ascmc).iret
          (E.swe_houses_ex w.1 tjd_ut iflag geolat geolon hsys cusps ascmc).cusps
          (E.swe_houses_ex w.1 tjd_ut iflag geolat geolon hsys cusps ascmc).ascmc]) }
  swe_house_name w hsys :=
    ((E.swe_house_name w.1 hsys).1, (E.swe_house_name w.1 hsys).2,
      w.2 ++ [Event.swe_house_name hsys (E.swe_house_name w.1 hsys).1])
  printf w fmt args := (E.printf w.1 fmt args, w.2 ++ [Event.printf fmt args])

/-- What the recorder holds after a run of `main` against `E`: the calls `E`
received from `main`, in the order in which it received them. -/
def record {σ : Type} (H : Swephexp) (E : Lib σ) (s : σ) (stk : Locals)
    (argc : Int) (argv : List String) : List Event :=
  (main H (spy E) (s, []) stk argc argv).final.lib.2

/-- A frame of a run against `spy E`, without the record. -/
def unspied {σ : Type} (f : Frame (σ × List Event)) : Frame σ :=
  ⟨f.lib.1, f.xx, f.cusps, f.ascmc, f.serr, f.spname⟩

/-! ## Observing a record -/

/-- The body identifier of a `swe_calc_ut` call. -/
def calcId : Event → Option Int
  | Event.swe_calc_ut _ ipl _ _ _ _ => some ipl
  | _ => none

/-- The body identifier of a `swe_get_planet_name` call. -/
def nameId : Event → Option Int
  | Event.swe_get_planet_name ipl _ => some ipl
  | _ => none

/-- The return code of a `swe_houses_ex` call. -/
def houseCode : Event → Option Int
  | Event.swe_houses_ex _ _ _ _ _ iret _ _ => some iret
  | _ => none

/-- The event is a `swe_julday` call. -/
def isJulday : Event → Bool
  | Event.swe_julday _ _ _ _ _ _ => true
  | _ => false

/-- The event is a `swe_calc_ut` call. -/
def isCalc : Event → Bool
  | Event.swe_calc_ut _ _ _ _ _ _ => true
  | _ => false

/-- The event is a `swe_calc_ut` call that returned a negative code. -/
def isFailedCalc : Event → Bool
  | Event.swe_calc_ut _ _ _ iret _ _ => decide (iret < 0)
  | _ => false

/-- The event is a `swe_houses_ex` call. -/
def isHouses : Event → Bool
  | Event.swe_houses_ex _ _ _ _ _ _ _ _ => true
  | _ => false

/-- The event is a `swe_house_name` call. -/
def isHouseName : Event → Bool
  | Event.swe_house_name _ _ => true
  | _ => false

/-- The event is a `printf` call with the format string `fmt`. -/
def isPrintf (fmt : String) : Event → Bool
  | Event.printf f _ => f == fmt
  | _ => false

/-- The event is a `printf` call. -/
def isOutput : Event → Bool
  | Event.printf _ _ => true
  | _ => false

/-- What `main` prints: the `printf` calls of a record, in order. -/
def output (t : List Event) : List Event :=
  t.filter isOutput

/-- What the body of the planet loop prints: the `printf` calls of obama.c:61,
obama.c:64 and obama.c:66. -/
def planetOutput (t : List Event) : List Event :=
  t.filter (fun e => isPrintf fmtName e || isPrintf fmtIret e || isPrintf fmtRow e)

/-- The body identifiers `lo, lo + 1, ..., hi`. -/
def idsFromTo (lo hi : Int) : List Int :=
  (List.range (hi + 1 - lo).toNat).map (fun (k : Nat) => lo + (k : Int))

/-- The number of newline characters a `%s` argument puts into the output. -/
def argNewlines : Arg → Nat
  | Arg.str s => s.count (Char.ofNat 10)
  | _ => 0

/-- The number of newline characters an event puts into the output: those of
the format string and those of the strings printed by `%s` (a number printed by
`%d` or `%lf` has none). -/
def newlines : Event → Nat
  | Event.printf fmt args => fmt.toList.count (Char.ofNat 10) + (args.map argNewlines).sum
  | _ => 0

/-- The number of newline-terminated lines a list of events puts into the
output. -/
def lineCount (t : List Event) : Nat :=
  (t.map newlines).sum

/-- The strings an event prints with `%s`. -/
def printedStrings : Event → List (List Char)
  | Event.printf _ args => args.filterMap (fun a => match a with
      | Arg.str s => some s
      | _ => none)
  | _ => []

/-! ## The shape of a record -/

/-- What the library did in one turn of the planet loop: the name it wrote,
and the return code and buffers of the position call. -/
structure PlanetRow where
  spname : List Char
  iret : Int
  xx : Fin 6 → Double
  serr : List Char

/-- The events of one turn of the planet loop in which the library did `r`. -/
def rowEvents (jd : Double) (iflag : Int) (ipl : Int) (r : PlanetRow) : List Event :=
  [Event.swe_get_planet_name ipl r.spname,
   Event.printf fmtName [Arg.str ((cstr r.spname).take 7)],
   Event.swe_calc_ut jd ipl iflag r.iret r.xx r.serr] ++
  (if r.iret < 0 then [Event.printf fmtIret [Arg.int r.iret, Arg.str (cstr r.serr)]] else []) ++
  [Event.printf fmtRow [Arg.dbl (r.xx 0), Arg.dbl (r.xx 1), Arg.dbl (r.xx 2), Arg.dbl (r.xx 3)]]

/-- The events of consecutive turns of the planet loop, from body `ipl` on. -/
def rowsEvents (jd : Double) (iflag : Int) : Int → List PlanetRow → List Event
  | _, [] => []
  | ipl, r :: rs => rowEvents jd iflag ipl r ++ rowsEvents jd iflag (ipl + 1) rs

/-- The events before the planet loop. -/
def prologue (H : Swephexp) (jd : Double) : List Event :=
  [Event.printf fmtDate [Arg.int 5, Arg.int 8, Arg.int 1961, Arg.dbl 5.4],
   Event.printf fmtGeo [Arg.dbl 21.3, Arg.dbl (-157.86666667)],
   Event.swe_julday 1961 8 5 5.4 H.SE_GREG_CAL jd,
   Event.printf fmtJulday [Arg.dbl jd],
   Event.printf fmtHead []]

/-- The first `n` cusp lines. -/
def cuspLines (cusps : Fin 13 → Double) (n : Nat) : List Event :=
  (List.range n).map (fun (k : Nat) =>
    Event.printf fmtCusp [Arg.int (1 + (k : Int)), Arg.dbl (rd cusps (1 + (k : Int)))])

/-- The twelve cusp lines, written out. -/
def twelveCuspLines (cusps : Fin 13 → Double) : List Event :=
  [Event.printf fmtCusp [Arg.int 1, Arg.dbl (cusps 1)],
   Event.printf fmtCusp [Arg.int 2, Arg.dbl (cusps 2)],
   Event.printf fmtCusp [Arg.int 3, Arg.dbl (cusps 3)],
   Event.printf fmtCusp [Arg.int 4, Arg.dbl (cusps 4)],
   Event.printf fmtCusp [Arg.int 5, Arg.dbl (cusps 5)],
   Event.printf fmtCusp [Arg.int 6, Arg.dbl (cusps 6)],
   Event.printf fmtCusp [Arg.int 7, Arg.dbl (cusps 7)],
   Event.printf fmtCusp [Arg.int 8, Arg.dbl (cusps 8)],
   Event.printf fmtCusp [Arg.int 9, Arg.dbl (cusps 9)],
   Event.printf fmtCusp [Arg.int 10, Arg.dbl (cusps 10)],
   Event.printf fmtCusp [Arg.int 11, Arg.dbl (cusps 11)],
   Event.printf fmtCusp [Arg.int 12, Arg.dbl (cusps 12)]]

/-- The events after a house computation that returned `c`. -/
def epilogue (c : Int) (cusps : Fin 13 → Double) (ascmc : Fin 10 → Double)
    (hname : List Char) : List Event :=
  if c < 0 then [Event.printf fmtHouseErr [Arg.int c]]
  else
    [Event.printf fmtAsc [Arg.dbl (ascmc 0), Arg.dbl (ascmc 1)],
     Event.swe_house_name 80 hname,
     Event.printf fmtHsys [Arg.str (cstr hname)]] ++ cuspLines cusps 12 ++ [Event.printf fmtEnd []]

/-! ## Libraries that write their results -/

/-- The library writes what `main` reads, and does not read what `main`'s
buffers held: for every call with out-buffers, the return code and the state
the call leaves the world in do not depend on what the out-buffers held before
the call, and neither do the string a name lookup leaves in `spname`, the
numbers a position call leaves in `xx[0..3]`, the string a failing position call
leaves in `serr`, and the numbers a successful house computation leaves in
`cusps[1..12]`, `ascmc[0]` and `ascmc[1]`. -/
def WritesResults {σ : Type} (E : Lib σ) : Prop :=
  (∀ st ipl b1 b2,
    (E.swe_get_planet_name st ipl b1).2 = (E.swe_get_planet_name st ipl b2).2 ∧
    cstr (E.swe_get_planet_name st ipl b1).1 = cstr (E.swe_get_planet_name st ipl b2).1) ∧
  (∀ st jd ipl iflag xx1 serr1 xx2 serr2,
    (E.swe_calc_ut st jd ipl iflag xx1 serr1).iret = (E.swe_calc_ut st jd ipl iflag xx2 serr2).iret ∧
    (E.swe_calc_ut st jd ipl iflag xx1 serr1).lib = (E.swe_calc_ut st jd ipl iflag xx2 serr2).lib ∧
    (∀ i : Fin 6, i.val < 4 →
      (E.swe_calc_ut st jd ipl iflag xx1 serr1).xx i =
        (E.swe_calc_ut st jd ipl iflag xx2 serr2).xx i) ∧
    ((E.swe_calc_ut st jd ipl iflag xx1 serr1).iret < 0 →
      cstr (E.swe_calc_ut st jd ipl iflag xx1 serr1).serr =
        cstr (E.swe_calc_ut st jd ipl iflag xx2 serr2).serr)) ∧
  (∀ st jd iflag lat lon hsys cu1 am1 cu2 am2,
    (E.swe_houses_ex st jd iflag lat lon hsys cu1 am1).iret =
      (E.swe_houses_ex st jd iflag lat lon hsys cu2 am2).iret ∧
    (E.swe_houses_ex st jd iflag lat lon hsys cu1 am1).lib =
      (E.swe_houses_ex st jd iflag lat lon hsys cu2 am2).lib ∧
    (0 ≤ (E.swe_houses_ex st jd iflag lat lon hsys cu1 am1).iret →
      (∀ i : Fin 13, 1 ≤ i.val →
        (E.swe_houses_ex st jd iflag lat lon hsys cu1 am1).cusps i =
          (E.swe_houses_ex st jd iflag lat lon hsys cu2 am2).cusps i) ∧
      (∀ i : Fin 10, i.val < 2 →
        (E.swe_houses_ex st jd iflag lat lon hsys cu1 am1).ascmc i =
          (E.swe_houses_ex st jd iflag lat lon hsys cu2 am2).ascmc i)))

/-- The functions `E`, with a house computation that leaves `v` in `cusps[0]`
and `w` in `ascmc[2..9]` and is as that of `E` in everything else. -/
def overwriteUnused {σ : Type} (E : Lib σ) (v : Double) (w : Fin 10 → Double) : Lib σ :=
  { E with
    swe_houses_ex := fun st jd iflag lat lon hsys cusps ascmc =>
      { E.swe_houses_ex st jd iflag lat lon hsys cusps ascmc with
        cusps := fun i =>
          if i.val = 0 then v else (E.swe_houses_ex st jd iflag lat lon hsys cusps ascmc).cusps i
        ascmc := fun i =>
          if i.val < 2 then (E.swe_houses_ex st jd iflag lat lon hsys cusps ascmc).ascmc i
          else w i } }

/-! ## Sample inputs -/

/-- A header: `OK = 0`, `ERR = -1`, `SE_GREG_CAL = 1`, `SEFLG_SWIEPH = 2`,
`SEFLG_SPEED = 256`. -/
def H0 : Swephexp := ⟨0, -1, 1, 2, 256⟩

/-- Local buffers that hold 0.0 and empty strings. -/
def stk0 : Locals := ⟨fun _ => 0.0, fun _ => 0.0, fun _ => 0.0, [], []⟩

/-- Local buffers as `stk0`, with 1.5 in `xx`. -/
def stk1 : Locals := ⟨fun _ => 1.5, fun _ => 0.0, fun _ => 0.0, [], []⟩

/-- A library whose calls all succeed and write all of their buffers: every
body is called `true Node` by it, `xx` holds 4.5, `cusps[i]` holds the double
with the bits `i` and `ascmc[i]` the double with the bits `100 + i`. -/
def libGood : Lib Unit where
  swe_julday _ _ _ _ _ _ := (2437516.725, ())
  swe_get_planet_name _ _ _ := ("true Node".toList, ())
  swe_calc_ut _ _ _ _ _ _ := ⟨0, fun _ => 4.5, [], ()⟩
  swe_houses_ex _ _ _ _ _ _ _ _ := ⟨0, fun i => ⟨i.val⟩, fun i => ⟨100 + i.val⟩, ()⟩
  swe_house_name _ _ := ("Placidus".toList, ())
  printf _ _ _ := ()

/-- A library whose position call fails for every body, leaves `no file` in
`serr` and leaves `xx` as it found it; every body is called `true Node` by it. -/
def libFail : Lib Unit where
  swe_julday _ _ _ _ _ _ := (2437516.725, ())
  swe_get_planet_name _ _ _ := ("true Node".toList, ())
  swe_calc_ut _ _ _ _ xx _ := ⟨-1, xx, "no file".toList, ()⟩
  swe_houses_ex _ _ _ _ _ _ _ _ := ⟨0, fun i => ⟨i.val⟩, fun i => ⟨100 + i.val⟩, ()⟩
  swe_house_name _ _ := ("Placidus".toList, ())
  printf _ _ _ := ()

/-- A library whose position call fails for every body and writes its buffers
all the same: 0.0 in `xx` and `no file` in `serr`. -/
def libFailZero : Lib Unit where
  swe_julday _ _ _ _ _ _ := (2437516.725, ())
  swe_get_planet_name _ _ _ := ("true Node".toList, ())
  swe_calc_ut _ _ _ _ _ _ := ⟨-1, fun _ => 0.0, "no file".toList, ()⟩
  swe_houses_ex _ _ _ _ _ _ _ _ := ⟨0, fun i => ⟨i.val⟩, fun i => ⟨100 + i.val⟩, ()⟩
  swe_house_name _ _ := ("Placidus".toList, ())
  printf _ _ _ := ()

/-- A library whose position call fails for the Sun only and leaves the
two-line error string `a`, newline, `b` in `serr`; every body is called
`true Node` by it. -/
def libTwoLines : Lib Unit where
  swe_julday _ _ _ _ _ _ := (2437516.725, ())
  swe_get_planet_name _ _ _ := ("true Node".toList, ())
  swe_calc_ut _ _ ipl _ _ _ :=
    ⟨if ipl = 0 then -1 else 0, fun _ => 4.5, [Char.ofNat 97, Char.ofNat 10, Char.ofNat 98], ()⟩
  swe_houses_ex _ _ _ _ _ _ _ _ := ⟨0, fun i => ⟨i.val⟩, fun i => ⟨100 + i.val⟩, ()⟩
  swe_house_name _ _ := ("Placidus".toList, ())
  printf _ _ _ := ()

/-- A library whose house computation fails with the code -1 and leaves its
buffers as it found them. -/
def libNoHouses : Lib Unit where
  swe_julday _ _ _ _ _ _ := (2437516.725, ())
  swe_get_planet_name _ _ _ := ("true Node".toList, ())
  swe_calc_ut _ _ _ _ _ _ := ⟨0, fun _ => 4.5, [], ()⟩
  swe_houses_ex _ _ _ _ _ _ cusps ascmc := ⟨-1, cusps, ascmc, ()⟩
  swe_house_name _ _ := ("Placidus".toList, ())
  printf _ _ _ := ()

/-! ## Lemmas -/

theorem literal_bits :
    (5.4 : Double) = ⟨0x401599999999999A⟩ ∧ (21.3 : Double) = ⟨0x40354CCCCCCCCCCD⟩ ∧
    (-157.86666667 : Double) = ⟨0xC063BBBBBBBD85DD⟩ ∧ (0.0 : Double) = ⟨0⟩ ∧
    (1.5 : Double) = ⟨0x3FF8000000000000⟩ := by
  decide

theorem forUpTo_eq_foldl {S : Type} (body : Int → S → S) (n : Nat) (i hi : Int) (s : S)
    (h : i + n = hi + 1) :
    forUpTo i hi body s = (List.range n).foldl (fun s (k : Nat) => body (i + (k : Int)) s) s := by
  induction n generalizing i s with
  | zero => rw [forUpTo]; simp; intro h2; omega
  | succ n ih =>
    rw [forUpTo, if_pos (by omega), ih (i + 1) _ (by omega)]
    rw [List.range_succ_eq_map, List.foldl_cons, List.foldl_map]
    simp only [Nat.cast_zero, add_zero, Nat.succ_eq_add_one, Nat.cast_add, Nat.cast_one]
    congr 1
    funext s k
    congr 1
    ring

theorem cstr_set_NUL (buf : List Char) (n : Nat) :
    cstr (buf.set n NUL) = (cstr buf).take n := by
  induction buf generalizing n with
  | nil => simp [cstr]
  | cons c cs ih =>
    cases n with
    | zero => simp [cstr, List.takeWhile_cons]
    | succ n =>
      have := ih n
      simp only [cstr] at this ⊢
      simp only [List.set_cons_succ, List.takeWhile_cons]
      split
      · simp [this]
      · simp

/-! ### The recorder changes nothing -/

theorem planetBody_unspied {σ : Type} (E : Lib σ) (jd : Double) (iflag ipl : Int)
    (f : Frame (σ × List Event)) :
    unspied (planetBody (spy E) jd iflag ipl f) = planetBody E jd iflag ipl (unspied f) := by
  simp only [planetBody, spy, printf, unspied]
  split <;> rfl

theorem forUpTo_unfold {S : Type} (i hi : Int) (body : Int → S → S) (s : S) :
    forUpTo i hi body s = if i ≤ hi then forUpTo (i + 1) hi body (body i s) else s := by
  rw [forUpTo]

theorem forUpTo_map {S T : Type} (g : S → T) (body1 : Int → S → S) (body2 : Int → T → T)
    (hbody : ∀ i s, g (body1 i s) = body2 i (g s)) (n : Nat) (i hi : Int) (s : S)
    (h : n = (hi + 1 - i).toNat) :
    g (forUpTo i hi body1 s) = forUpTo i hi body2 (g s) := by
  induction n generalizing i s with
  | zero =>
    rw [forUpTo_unfold i hi body1, forUpTo_unfold i hi body2, if_neg (by omega),
      if_neg (by omega)]
  | succ n ih =>
    rw [forUpTo_unfold i hi body1, forUpTo_unfold i hi body2, if_pos (by omega),
      if_pos (by omega), ih (i + 1) _ (by omega), hbody]

theorem printf_unspied {σ : Type} (E : Lib σ) (fmt : String) (args : List Arg)
    (f : Frame (σ × List Event)) :
    unspied (printf (spy E) fmt args f) = printf E fmt args (unspied f) := rfl

theorem planets_unspied {σ : Type} (H : Swephexp) (E : Lib σ) (jd : Double)
    (f : Frame (σ × List Event)) :
    unspied (planets H (spy E) jd f) = planets H E jd (unspied f) := by
  simp only [planets]
  rw [forUpTo_map unspied _ _ (fun i s => planetBody_unspied E jd _ i s) _ _ _ _ rfl]
  rfl

theorem houses_unspied {σ : Type} (H : Swephexp) (E : Lib σ) (jd : Double)
    (f : Frame (σ × List Event)) :
    (houses H (spy E) jd f).exit = (houses H E jd (unspied f)).exit ∧
    unspied (houses H (spy E) jd f).final = (houses H E jd (unspied f)).final := by
  simp only [houses]
  split
  · rename_i h
    have h2 : (E.swe_houses_ex (unspied f).lib jd 0 dlat dlon ihsy (unspied f).cusps
        (unspied f).ascmc).iret < 0 := h
    rw [if_pos h2]
    exact ⟨rfl, rfl⟩
  · rename_i h
    have h2 : ¬ (E.swe_houses_ex (unspied f).lib jd 0 dlat dlon ihsy (unspied f).cusps
        (unspied f).ascmc).iret < 0 := h
    rw [if_neg h2]
    refine ⟨rfl, ?_⟩
    simp only
    rw [printf_unspied, forUpTo_map unspied (cuspBody (spy E)) (cuspBody E) (fun i s => rfl)
      _ _ _ _ rfl]
    rfl

/-- Running `main` against the recorder is running it against the library: the
value `main` returns, its buffers and the state of the world at the end are the
same. -/
theorem main_unspied {σ : Type} (H : Swephexp) (E : Lib σ) (s : σ) (t : List Event)
    (stk : Locals) (argc : Int) (argv : List String) :
    (main H (spy E) (s, t) stk argc argv).exit = (main H E s stk argc argv).exit ∧
    unspied (main H (spy E) (s, t) stk argc argv).final = (main H E s stk argc argv).final := by
  simp only [main]
  refine ⟨?_, ?_⟩
  · refine (houses_unspied H E _ _).1.trans ?_
    rw [planets_unspied]
    rfl
  · refine (houses_unspied H E _ _).2.trans ?_
    rw [planets_unspied]
    rfl

/-! ### The shape of the record -/

theorem planetBody_record {σ : Type} (E : Lib σ) (jd : Double) (iflag ipl : Int)
    (f : Frame (σ × List Event)) :
    ∃ r : PlanetRow,
      (planetBody (spy E) jd iflag ipl f).lib.2 = f.lib.2 ++ rowEvents jd iflag ipl r := by
  refine ⟨⟨(E.swe_get_planet_name f.lib.1 ipl f.spname).1,
    (E.swe_calc_ut (E.printf (E.swe_get_planet_name f.lib.1 ipl f.spname).2 fmtName
      [Arg.str (cstr ((E.swe_get_planet_name f.lib.1 ipl f.spname).1.set 7 NUL))])
      jd ipl iflag f.xx f.serr).iret,
    (E.swe_calc_ut (E.printf (E.swe_get_planet_name f.lib.1 ipl f.spname).2 fmtName
      [Arg.str (cstr ((E.swe_get_planet_name f.lib.1 ipl f.spname).1.set 7 NUL))])
      jd ipl iflag f.xx f.serr).xx,
    (E.swe_calc_ut (E.printf (E.swe_get_planet_name f.lib.1 ipl f.spname).2 fmtName
      [Arg.str (cstr ((E.swe_get_planet_name f.lib.1 ipl f.spname).1.set 7 NUL))])
      jd ipl iflag f.xx f.serr).serr⟩, ?_⟩
  simp only [planetBody, rowEvents, printf, spy, cstr_set_NUL]
  split <;> simp

theorem rowsEvents_append (jd : Double) (iflag : Int) (a b : List PlanetRow) (lo : Int) :
    rowsEvents jd iflag lo (a ++ b) =
      rowsEvents jd iflag lo a ++ rowsEvents jd iflag (lo + (a.length : Int)) b := by
  induction a generalizing lo with
  | nil => simp [rowsEvents]
  | cons r rs ih =>
    have e : lo + 1 + (rs.length : Int) = lo + ((rs.length : Int) + 1) := by ring
    rw [List.cons_append]
    simp only [rowsEvents, ih, List.append_assoc, List.length_cons, Nat.cast_add, Nat.cast_one, e]

theorem planetLoop_record {σ : Type} (E : Lib σ) (jd : Double) (iflag lo : Int) (n : Nat)
    (f : Frame (σ × List Event)) :
    ∃ rows : List PlanetRow, rows.length = n ∧
      ((List.range n).foldl
          (fun s (k : Nat) => planetBody (spy E) jd iflag (lo + (k : Int)) s) f).lib.2 =
        f.lib.2 ++ rowsEvents jd iflag lo rows := by
  induction n with
  | zero => exact ⟨[], rfl, by simp [rowsEvents]⟩
  | succ n ih =>
    obtain ⟨rows, hlen, htr⟩ := ih
    rw [List.range_succ, List.foldl_append]
    simp only [List.foldl_cons, List.foldl_nil]
    obtain ⟨r, hr⟩ := planetBody_record E jd iflag (lo + (n : Int))
      ((List.range n).foldl (fun s (k : Nat) => planetBody (spy E) jd iflag (lo + (k : Int)) s) f)
    refine ⟨rows ++ [r], by simp [hlen], ?_⟩
    rw [hr, htr, rowsEvents_append, hlen]
    simp [rowsEvents, List.append_assoc]

theorem planets_record {σ : Type} (H : Swephexp) (E : Lib σ) (jd : Double)
    (f : Frame (σ × List Event)) :
    ∃ rows : List PlanetRow, rows.length = 12 ∧
      (planets H (spy E) jd f).lib.2 = f.lib.2 ++ Event.printf fmtHead [] ::
        rowsEvents jd (Int.lor H.SEFLG_SWIEPH H.SEFLG_SPEED) 0 rows := by
  obtain ⟨rows, hlen, htr⟩ := planetLoop_record E jd (Int.lor H.SEFLG_SWIEPH H.SEFLG_SPEED)
    SE_SUN 12 (printf (spy E) fmtHead [] f)
  refine ⟨rows, hlen, ?_⟩
  simp only [planets, forUpTo_eq_foldl _ 12 SE_SUN SE_TRUE_NODE _ (by decide)]
  rw [htr]
  simp [printf, spy, SE_SUN]

theorem cuspBody_record {σ : Type} (E : Lib σ) (i : Int) (f : Frame (σ × List Event)) :
    (cuspBody (spy E) i f).lib.2 =
      f.lib.2 ++ [Event.printf fmtCusp [Arg.int i, Arg.dbl (rd f.cusps i)]] ∧
    (cuspBody (spy E) i f).cusps = f.cusps :=
  ⟨rfl, rfl⟩

theorem cuspLoop_record {σ : Type} (E : Lib σ) (n : Nat) (f : Frame (σ × List Event)) :
    ((List.range n).foldl (fun s (k : Nat) => cuspBody (spy E) (1 + (k : Int)) s) f).lib.2 =
      f.lib.2 ++ cuspLines f.cusps n ∧
    ((List.range n).foldl (fun s (k : Nat) => cuspBody (spy E) (1 + (k : Int)) s) f).cusps =
      f.cusps := by
  induction n with
  | zero => simp [cuspLines]
  | succ n ih =>
    obtain ⟨h1, h2⟩ := ih
    rw [List.range_succ, List.foldl_append]
    simp only [List.foldl_cons, List.foldl_nil]
    rw [(cuspBody_record E _ _).1, (cuspBody_record E _ _).2, h1, h2]
    simp [cuspLines, List.range_succ]

theorem houses_record {σ : Type} (H : Swephexp) (E : Lib σ) (jd : Double)
    (f : Frame (σ × List Event)) :
    (houses H (spy E) jd f).final.lib.2 = f.lib.2 ++
      Event.swe_houses_ex jd 0 21.3 (-157.86666667) 80
        (E.swe_houses_ex f.lib.1 jd 0 dlat dlon ihsy f.cusps f.ascmc).iret
        (E.swe_houses_ex f.lib.1 jd 0 dlat dlon ihsy f.cusps f.ascmc).cusps
        (E.swe_houses_ex f.lib.1 jd 0 dlat dlon ihsy f.cusps f.ascmc).ascmc ::
        epilogue (E.swe_houses_ex f.lib.1 jd 0 dlat dlon ihsy f.cusps f.ascmc).iret
          (E.swe_houses_ex f.lib.1 jd 0 dlat dlon ihsy f.cusps f.ascmc).cusps
          (E.swe_houses_ex f.lib.1 jd 0 dlat dlon ihsy f.cusps f.ascmc).ascmc
          (E.swe_house_name
            (E.printf (E.swe_houses_ex f.lib.1 jd 0 dlat dlon ihsy f.cusps f.ascmc).lib fmtAsc
              [Arg.dbl ((E.swe_houses_ex f.lib.1 jd 0 dlat dlon ihsy f.cusps f.ascmc).ascmc 0),
               Arg.dbl ((E.swe_houses_ex f.lib.1 jd 0 dlat dlon ihsy f.cusps f.ascmc).ascmc 1)])
            ihsy).1 ∧
    (houses H (spy E) jd f).exit =
      if (E.swe_houses_ex f.lib.1 jd 0 dlat dlon ihsy f.cusps f.ascmc).iret < 0 then H.ERR
      else H.OK := by
  simp only [houses, forUpTo_eq_foldl _ 12 1 12 _ (by decide), epilogue]
  split
  · rename_i h
    have h2 : (E.swe_houses_ex f.lib.1 jd 0 dlat dlon ihsy f.cusps f.ascmc).iret < 0 := h
    rw [if_pos h2, if_pos h2]
    simp [printf, spy, dlat, dlon, ihsy]
  · rename_i h
    have h2 : ¬ (E.swe_houses_ex f.lib.1 jd 0 dlat dlon ihsy f.cusps f.ascmc).iret < 0 := h
    rw [if_neg h2, if_neg h2]
    refine ⟨?_, rfl⟩
    show (printf (spy E) fmtEnd [] _).lib.2 = _
    have hp : ∀ (fmt : String) (args : List Arg) (g : Frame (σ × List Event)),
        (printf (spy E) fmt args g).lib.2 = g.lib.2 ++ [Event.printf fmt args] := fun _ _ _ => rfl
    rw [hp, (cuspLoop_record E 12 _).1]
    simp [printf, spy, dlat, dlon, ihsy]

theorem houses_shape {σ : Type} (H : Swephexp) (E : Lib σ) (jd : Double)
    (f : Frame (σ × List Event)) :
    ∃ (c : Int) (cusps : Fin 13 → Double) (ascmc : Fin 10 → Double) (hname : List Char),
      (houses H (spy E) jd f).final.lib.2 = f.lib.2 ++
        Event.swe_houses_ex jd 0 21.3 (-157.86666667) 80 c cusps ascmc ::
          epilogue c cusps ascmc hname ∧
      (houses H (spy E) jd f).exit = if c < 0 then H.ERR else H.OK :=
  ⟨_, _, _, _, houses_record H E jd f⟩

theorem main_shape {σ : Type} (H : Swephexp) (E : Lib σ) (s : σ) (stk : Locals)
    (argc : Int) (argv : List String) :
    ∃ (jd : Double) (rows : List PlanetRow) (c : Int) (cusps : Fin 13 → Double)
      (ascmc : Fin 10 → Double) (hname : List Char),
      rows.length = 12 ∧
      record H E s stk argc argv =
        prologue H jd ++ rowsEvents jd (Int.lor H.SEFLG_SWIEPH H.SEFLG_SPEED) 0 rows ++
          Event.swe_houses_ex jd 0 21.3 (-157.86666667) 80 c cusps ascmc ::
            epilogue c cusps ascmc hname ∧
      (main H E s stk argc argv).exit = if c < 0 then H.ERR else H.OK := by
  rw [← (main_unspied H E s [] stk argc argv).1]
  simp only [record, main]
  generalize hjd : (spy E).swe_julday _ iyar imon iday dhour H.SE_GREG_CAL = jdr
  generalize hf : printf (spy E) fmtJulday [Arg.dbl jdr.1] _ = f4
  obtain ⟨rows, hlen, hrows⟩ := planets_record H E jdr.1 f4
  obtain ⟨c, cusps, ascmc, hname, htr, hex⟩ := houses_shape H E jdr.1 (planets H (spy E) jdr.1 f4)
  refine ⟨jdr.1, rows, c, cusps, ascmc, hname, hlen, ?_, hex⟩
  rw [htr, hrows, ← hf, ← hjd]
  simp [printf, spy, prologue, iday, imon, iyar, dhour, dlat, dlon]

/-! ### Facts about the shape -/

theorem mem_rowEvents {jd : Double} {iflag ipl : Int} {r : PlanetRow} {e : Event}
    (h : e ∈ rowEvents jd iflag ipl r) :
    e = Event.swe_get_planet_name ipl r.spname ∨
    e = Event.printf fmtName [Arg.str ((cstr r.spname).take 7)] ∨
    e = Event.swe_calc_ut jd ipl iflag r.iret r.xx r.serr ∨
    (r.iret < 0 ∧ e = Event.printf fmtIret [Arg.int r.iret, Arg.str (cstr r.serr)]) ∨
    e = Event.printf fmtRow [Arg.dbl (r.xx 0), Arg.dbl (r.xx 1), Arg.dbl (r.xx 2), Arg.dbl (r.xx 3)] := by
  unfold rowEvents at h
  split at h <;> simp at h <;> tauto

theorem mem_rowsEvents {jd : Double} {iflag : Int} {e : Event} (rows : List PlanetRow) (lo : Int)
    (h : e ∈ rowsEvents jd iflag lo rows) :
    ∃ (k : Nat) (r : PlanetRow), rows[k]? = some r ∧ e ∈ rowEvents jd iflag (lo + (k : Int)) r := by
  induction rows generalizing lo with
  | nil => simp [rowsEvents] at h
  | cons r rs ih =>
    simp only [rowsEvents, List.mem_append] at h
    rcases h with h | h
    · exact ⟨0, r, by simp, by simpa using h⟩
    · obtain ⟨k, r', hk, he⟩ := ih (lo + 1) h
      refine ⟨k + 1, r', by simpa using hk, ?_⟩
      have e : lo + 1 + (k : Int) = lo + ((k + 1 : Nat) : Int) := by push_cast; ring
      rw [← e]; exact he

theorem rowsEvents_calcId (jd : Double) (iflag : Int) (rows : List PlanetRow) (lo : Int) :
    (rowsEvents jd iflag lo rows).filterMap calcId =
      (List.range rows.length).map (fun (k : Nat) => lo + (k : Int)) := by
  induction rows generalizing lo with
  | nil => simp [rowsEvents]
  | cons r rs ih =>
    have hr : (rowEvents jd iflag lo r).filterMap calcId = [lo] := by
      unfold rowEvents
      split <;> simp [List.filterMap_cons, calcId]
    rw [rowsEvents, List.filterMap_append, hr, ih (lo + 1), List.length_cons,
      List.range_succ_eq_map]
    simp only [List.map_cons, List.map_map, Function.comp_def, Nat.cast_zero, add_zero,
      Nat.succ_eq_add_one, Nat.cast_add, Nat.cast_one, List.singleton_append, List.cons.injEq,
      true_and]
    apply List.map_congr_left
    intro a _
    ring

theorem rowsEvents_nameId (jd : Double) (iflag : Int) (rows : List PlanetRow) (lo : Int) :
    (rowsEvents jd iflag lo rows).filterMap nameId =
      (List.range rows.length).map (fun (k : Nat) => lo + (k : Int)) := by
  induction rows generalizing lo with
  | nil => simp [rowsEvents]
  | cons r rs ih =>
    have hr : (rowEvents jd iflag lo r).filterMap nameId = [lo] := by
      unfold rowEvents
      split <;> simp [List.filterMap_cons, nameId]
    rw [rowsEvents, List.filterMap_append, hr, ih (lo + 1), List.length_cons,
      List.range_succ_eq_map]
    simp only [List.map_cons, List.map_map, Function.comp_def, Nat.cast_zero, add_zero,
      Nat.succ_eq_add_one, Nat.cast_add, Nat.cast_one, List.singleton_append, List.cons.injEq,
      true_and]
    apply List.map_congr_left
    intro a _
    ring

theorem rowsEvents_countP_zero (p : Event → Bool) (jd : Double) (iflag : Int)
    (rows : List PlanetRow) (lo : Int)
    (hp : ∀ (ipl : Int) (r : PlanetRow), ∀ e ∈ rowEvents jd iflag ipl r, p e = false) :
    (rowsEvents jd iflag lo rows).countP p = 0 := by
  rw [List.countP_eq_zero]
  intro e he
  obtain ⟨k, r, _, hk⟩ := mem_rowsEvents rows lo he
  simp [hp _ r e hk]

theorem rowsEvents_countP_one (p : Event → Bool) (jd : Double) (iflag : Int)
    (rows : List PlanetRow) (lo : Int)
    (hp : ∀ (ipl : Int) (r : PlanetRow), (rowEvents jd iflag ipl r).countP p = 1) :
    (rowsEvents jd iflag lo rows).countP p = rows.length := by
  induction rows generalizing lo with
  | nil => simp [rowsEvents]
  | cons r rs ih => rw [rowsEvents, List.countP_append, hp, ih, List.length_cons, add_comm]

theorem mem_epilogue {c : Int} {cusps : Fin 13 → Double} {ascmc : Fin 10 → Double}
    {hname : List Char} {e : Event} (h : e ∈ epilogue c cusps ascmc hname) :
    (c < 0 ∧ e = Event.printf fmtHouseErr [Arg.int c]) ∨
    (0 ≤ c ∧ (e = Event.printf fmtAsc [Arg.dbl (ascmc 0), Arg.dbl (ascmc 1)] ∨
      e = Event.swe_house_name 80 hname ∨
      e = Event.printf fmtHsys [Arg.str (cstr hname)] ∨
      (∃ k : Nat, k < 12 ∧
        e = Event.printf fmtCusp [Arg.int (1 + (k : Int)), Arg.dbl (rd cusps (1 + (k : Int)))]) ∨
      e = Event.printf fmtEnd [])) := by
  unfold epilogue at h
  split at h
  · left; exact ⟨by assumption, by simpa using h⟩
  · right
    refine ⟨by omega, ?_⟩
    simp only [cuspLines, List.cons_append, List.nil_append, List.mem_cons, List.mem_append,
      List.mem_map, List.mem_range, List.mem_singleton, List.not_mem_nil, or_false] at h
    rcases h with h | h | h | ⟨k, hk, h⟩ | h
    · exact Or.inl h
    · exact Or.inr (Or.inl h)
    · exact Or.inr (Or.inr (Or.inl h))
    · exact Or.inr (Or.inr (Or.inr (Or.inl ⟨k, hk, h.symm⟩)))
    · exact Or.inr (Or.inr (Or.inr (Or.inr h)))

theorem epilogue_countP_zero (p : Event → Bool) (c : Int) (cusps : Fin 13 → Double)
    (ascmc : Fin 10 → Double) (hname : List Char)
    (h1 : ∀ args, p (Event.printf fmtHouseErr args) = false)
    (h2 : ∀ args, p (Event.printf fmtAsc args) = false)
    (h3 : ∀ hs nm, p (Event.swe_house_name hs nm) = false)
    (h4 : ∀ args, p (Event.printf fmtHsys args) = false)
    (h5 : ∀ args, p (Event.printf fmtCusp args) = false)
    (h6 : ∀ args, p (Event.printf fmtEnd args) = false) :
    (epilogue c cusps ascmc hname).countP p = 0 := by
  rw [List.countP_eq_zero]
  intro e he
  rcases mem_epilogue he with ⟨_, h⟩ | ⟨_, h | h | h | ⟨k, _, h⟩ | h⟩ <;> simp [h, h1, h2, h3, h4, h5, h6]

theorem rowEvents_countP_zero (p : Event → Bool) (jd : Double) (iflag : Int)
    (h1 : ∀ ipl nm, p (Event.swe_get_planet_name ipl nm) = false)
    (h2 : ∀ args, p (Event.printf fmtName args) = false)
    (h3 : ∀ a b c d e f, p (Event.swe_calc_ut a b c d e f) = false)
    (h4 : ∀ args, p (Event.printf fmtIret args) = false)
    (h5 : ∀ args, p (Event.printf fmtRow args) = false) :
    ∀ (ipl : Int) (r : PlanetRow), ∀ e ∈ rowEvents jd iflag ipl r, p e = false := by
  intro ipl r e he
  rcases mem_rowEvents he with h | h | h | ⟨_, h⟩ | h <;> simp [h, h1, h2, h3, h4, h5]

theorem epilogue_filterMap_nil {β : Type} (g : Event → Option β) (c : Int)
    (cusps : Fin 13 → Double) (ascmc : Fin 10 → Double) (hname : List Char)
    (h1 : ∀ fmt args, g (Event.printf fmt args) = none)
    (h2 : ∀ hs nm, g (Event.swe_house_name hs nm) = none) :
    (epilogue c cusps ascmc hname).filterMap g = [] := by
  rw [List.filterMap_eq_nil_iff]
  intro e he
  rcases mem_epilogue he with ⟨_, h⟩ | ⟨_, h | h | h | ⟨k, _, h⟩ | h⟩ <;> simp [h, h1, h2]

theorem rowsEvents_filterMap_nil {β : Type} (g : Event → Option β) (jd : Double) (iflag : Int)
    (rows : List PlanetRow) (lo : Int)
    (h1 : ∀ fmt args, g (Event.printf fmt args) = none)
    (h2 : ∀ ipl nm, g (Event.swe_get_planet_name ipl nm) = none)
    (h3 : ∀ a b c d e f, g (Event.swe_calc_ut a b c d e f) = none) :
    (rowsEvents jd iflag lo rows).filterMap g = [] := by
  rw [List.filterMap_eq_nil_iff]
  intro e he
  obtain ⟨k, r, _, hk⟩ := mem_rowsEvents rows lo he
  rcases mem_rowEvents hk with h | h | h | ⟨_, h⟩ | h <;> simp [h, h1, h2, h3]

theorem idsFromTo_bodies : idsFromTo SE_SUN SE_TRUE_NODE = [0, 1, 2, 3, 4, 5, 6, 7, 8, 9, 10, 11] := by
  decide

theorem isPrintf_printf (fmt f : String) (args : List Arg) :
    isPrintf fmt (Event.printf f args) = (f == fmt) := rfl

theorem rowsEvents_isPrintf_zero (fmt : String) (jd : Double) (iflag : Int)
    (rows : List PlanetRow) (lo : Int) (h1 : fmtName ≠ fmt) (h2 : fmtIret ≠ fmt)
    (h3 : fmtRow ≠ fmt) :
    (rowsEvents jd iflag lo rows).countP (isPrintf fmt) = 0 := by
  apply rowsEvents_countP_zero
  apply rowEvents_countP_zero
  · intro _ _; rfl
  · intro args; simpa [isPrintf_printf] using h1
  · intro _ _ _ _ _ _; rfl
  · intro args; simpa [isPrintf_printf] using h2
  · intro args; simpa [isPrintf_printf] using h3

theorem cuspLines_countP (fmt : String) (cusps : Fin 13 → Double) (n : Nat) :
    (cuspLines cusps n).countP (isPrintf fmt) = if fmtCusp = fmt then n else 0 := by
  induction n with
  | zero => simp [cuspLines]
  | succ n ih =>
    have : cuspLines cusps (n + 1) = cuspLines cusps n ++
        [Event.printf fmtCusp [Arg.int (1 + (n : Int)), Arg.dbl (rd cusps (1 + (n : Int)))]] := by
      simp [cuspLines, List.range_succ]
    rw [this, List.countP_append, ih]
    by_cases h : fmtCusp = fmt <;> simp [List.countP_cons, isPrintf_printf, h]

theorem rowsEvents_split (jd : Double) (iflag : Int) (rows : List PlanetRow) (lo : Int) (j : Nat)
    (r : PlanetRow) (h : rows[j]? = some r) :
    rowsEvents jd iflag lo rows =
      rowsEvents jd iflag lo (rows.take j) ++ (rowEvents jd iflag (lo + (j : Int)) r ++
        rowsEvents jd iflag (lo + (j : Int) + 1) (rows.drop (j + 1))) ∧
    (rows.take j).length = j ∧ (rows.drop (j + 1)).length = rows.length - (j + 1) := by
  obtain ⟨hj, hr⟩ := List.getElem?_eq_some.mp h
  have hlen : (rows.take j).length = j := by simp; omega
  have hsplit : rows = rows.take j ++ r :: rows.drop (j + 1) := by
    rw [← hr, ← List.drop_eq_getElem_cons hj, List.take_append_drop]
  refine ⟨?_, hlen, by simp⟩
  conv_lhs => rw [hsplit]
  rw [rowsEvents_append, hlen, rowsEvents]

theorem calc_event_located {jd jd1 : Double} {iflag k fl iret : Int} {xx : Fin 6 → Double}
    {serr : List Char} {H : Swephexp} {rows : List PlanetRow} {c : Int}
    {cusps : Fin 13 → Double} {ascmc : Fin 10 → Double} {hname : List Char}
    (he : Event.swe_calc_ut jd1 k fl iret xx serr ∈
      prologue H jd ++ rowsEvents jd iflag 0 rows ++
        Event.swe_houses_ex jd 0 21.3 (-157.86666667) 80 c cusps ascmc ::
          epilogue c cusps ascmc hname) :
    ∃ (j : Nat) (r : PlanetRow), rows[j]? = some r ∧ k = (j : Int) ∧ jd1 = jd ∧ fl = iflag ∧
      iret = r.iret ∧ xx = r.xx ∧ serr = r.serr := by
  simp only [List.mem_append, List.mem_cons] at he
  rcases he with (hp | hr) | hh | hep
  · simp [prologue] at hp
  · obtain ⟨j, r, hj, hk⟩ := mem_rowsEvents rows 0 hr
    refine ⟨j, r, hj, ?_⟩
    rcases mem_rowEvents hk with h | h | h | ⟨_, h⟩ | h <;> simp at h
    exact ⟨h.2.1, h.1, h.2.2⟩
  · simp at hh
  · rcases mem_epilogue hep with ⟨_, h⟩ | ⟨_, h | h | h | ⟨k, _, h⟩ | h⟩ <;> simp at h

theorem rowsEvents_countP_fmtRow (jd : Double) (iflag : Int) (rows : List PlanetRow) (lo : Int) :
    (rowsEvents jd iflag lo rows).countP (isPrintf fmtRow) = rows.length := by
  apply rowsEvents_countP_one
  intro ipl r
  unfold rowEvents
  split <;> rfl

theorem planetOutput_append (a b : List Event) :
    planetOutput (a ++ b) = planetOutput a ++ planetOutput b := by
  simp [planetOutput]

theorem lineCount_append (a b : List Event) : lineCount (a ++ b) = lineCount a + lineCount b := by
  simp [lineCount]

theorem rowEvents_lines (jd : Double) (iflag ipl : Int) (r : PlanetRow)
    (h : ∀ e ∈ planetOutput (rowEvents jd iflag ipl r), ∀ str ∈ printedStrings e,
      Char.ofNat 10 ∉ str) :
    lineCount (planetOutput (rowEvents jd iflag ipl r)) =
      1 + (rowEvents jd iflag ipl r).countP isFailedCalc := by
  have hn : ((cstr r.spname).take 7).count (Char.ofNat 10) = 0 := by
    rw [List.count_eq_zero]
    apply h (Event.printf fmtName [Arg.str ((cstr r.spname).take 7)])
    · unfold rowEvents planetOutput
      split <;> simp [isPrintf_printf]
    · simp [printedStrings]
  by_cases hneg : r.iret < 0
  · have hs : (cstr r.serr).count (Char.ofNat 10) = 0 := by
      rw [List.count_eq_zero]
      apply h (Event.printf fmtIret [Arg.int r.iret, Arg.str (cstr r.serr)])
      · unfold rowEvents planetOutput
        simp [hneg, isPrintf_printf]
      · simp [printedStrings]
    have e1 : planetOutput (rowEvents jd iflag ipl r) =
        [Event.printf fmtName [Arg.str ((cstr r.spname).take 7)],
         Event.printf fmtIret [Arg.int r.iret, Arg.str (cstr r.serr)],
         Event.printf fmtRow [Arg.dbl (r.xx 0), Arg.dbl (r.xx 1), Arg.dbl (r.xx 2),
           Arg.dbl (r.xx 3)]] := by
      simp only [rowEvents, hneg, if_true]
      rfl
    have e2 : (rowEvents jd iflag ipl r).countP isFailedCalc = 1 := by
      simp [rowEvents, hneg, List.countP_cons, isFailedCalc]
    rw [e1, e2]
    simp only [lineCount, List.map_cons, List.map_nil, newlines, argNewlines, List.sum_cons,
      List.sum_nil, hn, hs]
    rfl
  · have e1 : planetOutput (rowEvents jd iflag ipl r) =
        [Event.printf fmtName [Arg.str ((cstr r.spname).take 7)],
         Event.printf fmtRow [Arg.dbl (r.xx 0), Arg.dbl (r.xx 1), Arg.dbl (r.xx 2),
           Arg.dbl (r.xx 3)]] := by
      simp only [rowEvents, hneg, if_false]
      rfl
    have e2 : (rowEvents jd iflag ipl r).countP isFailedCalc = 0 := by
      simp [rowEvents, hneg, List.countP_cons, isFailedCalc]
    rw [e1, e2]
    simp only [lineCount, List.map_cons, List.map_nil, newlines, argNewlines, List.sum_cons,
      List.sum_nil, hn]
    rfl

theorem rowsEvents_lines (jd : Double) (iflag : Int) (rows : List PlanetRow) (lo : Int)
    (h : ∀ e ∈ planetOutput (rowsEvents jd iflag lo rows), ∀ str ∈ printedStrings e,
      Char.ofNat 10 ∉ str) :
    lineCount (planetOutput (rowsEvents jd iflag lo rows)) =
      rows.length + (rowsEvents jd iflag lo rows).countP isFailedCalc := by
  induction rows generalizing lo with
  | nil => simp [rowsEvents, planetOutput, lineCount]
  | cons r rs ih =>
    rw [rowsEvents, planetOutput_append] at h
    rw [rowsEvents, planetOutput_append, lineCount_append, List.countP_append,
      rowEvents_lines jd iflag lo r (fun e he => h e (List.mem_append_left _ he)),
      ih (lo + 1) (fun e he => h e (List.mem_append_right _ he)), List.length_cons]
    omega

theorem rowsEvents_countP_fmtIret (jd : Double) (iflag : Int) (rows : List PlanetRow) (lo : Int) :
    (rowsEvents jd iflag lo rows).countP (isPrintf fmtIret) =
      (rowsEvents jd iflag lo rows).countP isFailedCalc := by
  induction rows generalizing lo with
  | nil => simp [rowsEvents]
  | cons r rs ih =>
    have : (rowEvents jd iflag lo r).countP (isPrintf fmtIret) =
        (rowEvents jd iflag lo r).countP isFailedCalc := by
      by_cases hneg : r.iret < 0
      · have e2 : (rowEvents jd iflag lo r).countP isFailedCalc = 1 := by
          simp [rowEvents, hneg, List.countP_cons, isFailedCalc]
        rw [e2]
        simp only [rowEvents, hneg, if_true]
        rfl
      · have e2 : (rowEvents jd iflag lo r).countP isFailedCalc = 0 := by
          simp [rowEvents, hneg, List.countP_cons, isFailedCalc]
        rw [e2]
        simp only [rowEvents, hneg, if_false]
        rfl
    rw [rowsEvents, List.countP_append, List.countP_append, this, ih]

theorem rowEvents_within (jd : Double) (iflag : Int) (H : Swephexp) (rows : List PlanetRow)
    (c : Int) (cusps : Fin 13 → Double) (ascmc : Fin 10 → Double) (hname : List Char) (j : Nat)
    (r : PlanetRow) (hj : rows[j]? = some r) :
    rowEvents jd iflag (j : Int) r <:+:
      prologue H jd ++ rowsEvents jd iflag 0 rows ++
        Event.swe_houses_ex jd 0 21.3 (-157.86666667) 80 c cusps ascmc ::
          epilogue c cusps ascmc hname := by
  obtain ⟨hsplit, -, -⟩ := rowsEvents_split jd iflag rows 0 j r hj
  rw [zero_add] at hsplit
  refine ⟨prologue H jd ++ rowsEvents jd iflag 0 (rows.take j),
    rowsEvents jd iflag ((j : Int) + 1) (rows.drop (j + 1)) ++
      Event.swe_houses_ex jd 0 21.3 (-157.86666667) 80 c cusps ascmc ::
        epilogue c cusps ascmc hname, ?_⟩
  rw [hsplit]
  simp [List.append_assoc]

theorem planetOutput_epilogue (c : Int) (cusps : Fin 13 → Double) (ascmc : Fin 10 → Double)
    (hname : List Char) : planetOutput (epilogue c cusps ascmc hname) = [] := by
  have key : ∀ e ∈ epilogue c cusps ascmc hname,
      (isPrintf fmtName e || isPrintf fmtIret e || isPrintf fmtRow e) = false := by
    intro e he
    rcases mem_epilogue he with ⟨_, h⟩ | ⟨_, h | h | h | ⟨k, _, h⟩ | h⟩ <;> rw [h] <;> rfl
  unfold planetOutput
  rw [List.filter_eq_nil_iff]
  intro e he
  simp [key e he]

theorem output_append (a b : List Event) : output (a ++ b) = output a ++ output b := by
  simp [output]

theorem cuspLines_congr (a b : Fin 13 → Double) (n : Nat)
    (h : ∀ i : Fin 13, 1 ≤ i.val → a i = b i) : cuspLines a n = cuspLines b n := by
  unfold cuspLines
  apply List.map_congr_left
  intro k _
  have : rd a (1 + (k : Int)) = rd b (1 + (k : Int)) := by
    unfold rd
    split
    · rename_i hk
      exact h _ (by simp only; omega)
    · rfl
  rw [this]

theorem calc_count {σ : Type} (H : Swephexp) (E : Lib σ) (s : σ) (stk : Locals)
    (argc : Int) (argv : List String) :
    (record H E s stk argc argv).countP isCalc = 12 := by
  obtain ⟨jd, rows, c, cusps, ascmc, hname, hlen, hT, -⟩ := main_shape H E s stk argc argv
  have h1 : (rowsEvents jd (Int.lor H.SEFLG_SWIEPH H.SEFLG_SPEED) 0 rows).countP isCalc = 12 := by
    rw [rowsEvents_countP_one, hlen]
    intro ipl r
    unfold rowEvents
    split <;> simp [List.countP_cons, isCalc]
  have h2 : (epilogue c cusps ascmc hname).countP isCalc = 0 := by
    rw [List.countP_eq_zero]
    intro e he
    rcases mem_epilogue he with ⟨_, h⟩ | ⟨_, h | h | h | ⟨k, _, h⟩ | h⟩ <;> simp [h, isCalc]
  rw [hT]
  simp [List.countP_append, List.countP_cons, h1, h2, prologue, isCalc]

theorem calls_in_trace {σ : Type} (H : Swephexp) (E : Lib σ) (s : σ) (stk : Locals)
    (argc : Int) (argv : List String) :
    (record H E s stk argc argv).countP isJulday = 1 ∧
    (record H E s stk argc argv).countP isHouses = 1 := by
  obtain ⟨jd, rows, c, cusps, ascmc, hname, hlen, hT, -⟩ := main_shape H E s stk argc argv
  have r1 := rowsEvents_countP_zero isJulday jd (Int.lor H.SEFLG_SWIEPH H.SEFLG_SPEED) rows 0
    (rowEvents_countP_zero _ _ _ (by simp [isJulday]) (by simp [isJulday]) (by simp [isJulday])
      (by simp [isJulday]) (by simp [isJulday]))
  have r2 := rowsEvents_countP_zero isHouses jd (Int.lor H.SEFLG_SWIEPH H.SEFLG_SPEED) rows 0
    (rowEvents_countP_zero _ _ _ (by simp [isHouses]) (by simp [isHouses]) (by simp [isHouses])
      (by simp [isHouses]) (by simp [isHouses]))
  have e1 := epilogue_countP_zero isJulday c cusps ascmc hname (by simp [isJulday])
    (by simp [isJulday]) (by simp [isJulday]) (by simp [isJulday]) (by simp [isJulday])
    (by simp [isJulday])
  have e2 := epilogue_countP_zero isHouses c cusps ascmc hname (by simp [isHouses])
    (by simp [isHouses]) (by simp [isHouses]) (by simp [isHouses]) (by simp [isHouses])
    (by simp [isHouses])
  rw [hT]
  constructor
  · simp [List.countP_append, List.countP_cons, r1, e1, prologue, isJulday]
  · simp [List.countP_append, List.countP_cons, r2, e2, prologue, isHouses]

theorem main_houseCode {σ : Type} (H : Swephexp) (E : Lib σ) (s : σ) (stk : Locals)
    (argc : Int) (argv : List String) (jd : Double) (rows : List PlanetRow) (c : Int)
    (cusps : Fin 13 → Double) (ascmc : Fin 10 → Double) (hname : List Char)
    (hT : (record H E s stk argc argv) =
        prologue H jd ++ rowsEvents jd (Int.lor H.SEFLG_SWIEPH H.SEFLG_SPEED) 0 rows ++
          Event.swe_houses_ex jd 0 21.3 (-157.86666667) 80 c cusps ascmc ::
            epilogue c cusps ascmc hname) :
    (record H E s stk argc argv).filterMap houseCode = [c] := by
  have r1 := rowsEvents_filterMap_nil houseCode jd (Int.lor H.SEFLG_SWIEPH H.SEFLG_SPEED) rows 0
    (by simp [houseCode]) (by simp [houseCode]) (by simp [houseCode])
  have e1 := epilogue_filterMap_nil houseCode c cusps ascmc hname (by simp [houseCode])
    (by simp [houseCode])
  rw [hT]
  simp [List.filterMap_append, List.filterMap_cons, r1, e1, prologue, houseCode]

/-! ### Two runs side by side -/

theorem output_singleton_printf (fmt : String) (args : List Arg) :
    output [Event.printf fmt args] = [Event.printf fmt args] := rfl

theorem output_cuspLines (cusps : Fin 13 → Double) (n : Nat) :
    output (cuspLines cusps n) = cuspLines cusps n := by
  unfold output
  rw [List.filter_eq_self]
  intro e he
  simp only [cuspLines, List.mem_map] at he
  obtain ⟨k, _, rfl⟩ := he
  rfl

theorem output_epilogue (c : Int) (cusps : Fin 13 → Double) (ascmc : Fin 10 → Double)
    (hname : List Char) :
    output (epilogue c cusps ascmc hname) =
      if c < 0 then [Event.printf fmtHouseErr [Arg.int c]]
      else
        [Event.printf fmtAsc [Arg.dbl (ascmc 0), Arg.dbl (ascmc 1)],
         Event.printf fmtHsys [Arg.str (cstr hname)]] ++ cuspLines cusps 12 ++
          [Event.printf fmtEnd []] := by
  unfold epilogue
  split
  · rfl
  · rw [output_append, output_append, output_cuspLines]
    rfl

theorem foldl_related {S : Type} (R : S → S → Prop) (body1 body2 : S → Nat → S)
    (hbody : ∀ k a b, R a b → R (body1 a k) (body2 b k)) (l : List Nat) (a b : S) (h : R a b) :
    R (l.foldl body1 a) (l.foldl body2 b) := by
  induction l generalizing a b with
  | nil => exact h
  | cons k ks ih => exact ih _ _ (hbody k a b h)

theorem planetBody_related {σ : Type} (E : Lib σ) (hL : WritesResults E) (jd : Double)
    (iflag ipl : Int) (f g : Frame (σ × List Event))
    (h : f.lib.1 = g.lib.1 ∧ output f.lib.2 = output g.lib.2) :
    (planetBody (spy E) jd iflag ipl f).lib.1 = (planetBody (spy E) jd iflag ipl g).lib.1 ∧
    output (planetBody (spy E) jd iflag ipl f).lib.2 =
      output (planetBody (spy E) jd iflag ipl g).lib.2 := by
  obtain ⟨hN, hC, -⟩ := hL
  obtain ⟨hlib, hout⟩ := h
  obtain ⟨n1, n2⟩ := hN g.lib.1 ipl f.spname g.spname
  obtain ⟨c1, c2, c3, c4⟩ := hC
    (E.printf (E.swe_get_planet_name g.lib.1 ipl g.spname).2 fmtName
      [Arg.str ((cstr (E.swe_get_planet_name g.lib.1 ipl g.spname).1).take 7)])
    jd ipl iflag f.xx f.serr g.xx g.serr
  simp only [planetBody, spy, printf, cstr_set_NUL, hlib, n2, n1, c1]
  split
  · rename_i hneg
    have c4h := c4 (by rw [c1]; exact hneg)
    simp only [output_append, hout, c2, c3 0 (by decide), c3 1 (by decide), c3 2 (by decide),
      c3 3 (by decide), c4h]
    exact ⟨trivial, by simp [output, isOutput]⟩
  · simp only [output_append, hout, c2, c3 0 (by decide), c3 1 (by decide), c3 2 (by decide),
      c3 3 (by decide)]
    exact ⟨trivial, by simp [output, isOutput]⟩

theorem planets_related {σ : Type} (H : Swephexp) (E : Lib σ) (hL : WritesResults E)
    (jd : Double) (f g : Frame (σ × List Event))
    (h : f.lib.1 = g.lib.1 ∧ output f.lib.2 = output g.lib.2) :
    (planets H (spy E) jd f).lib.1 = (planets H (spy E) jd g).lib.1 ∧
    output (planets H (spy E) jd f).lib.2 = output (planets H (spy E) jd g).lib.2 := by
  simp only [planets, forUpTo_eq_foldl _ 12 SE_SUN SE_TRUE_NODE _ (by decide)]
  apply foldl_related
    (fun a b : Frame (σ × List Event) => a.lib.1 = b.lib.1 ∧ output a.lib.2 = output b.lib.2)
  · intro k a b hab
    exact planetBody_related E hL jd _ _ a b hab
  · exact ⟨by simp [printf, spy, h.1], by simp [printf, spy, output_append, h.2]⟩

theorem houses_related {σ : Type} (H : Swephexp) (E : Lib σ) (hL : WritesResults E)
    (jd : Double) (f g : Frame (σ × List Event))
    (h : f.lib.1 = g.lib.1 ∧ output f.lib.2 = output g.lib.2) :
    output (houses H (spy E) jd f).final.lib.2 = output (houses H (spy E) jd g).final.lib.2 ∧
    (houses H (spy E) jd f).exit = (houses H (spy E) jd g).exit := by
  obtain ⟨-, -, hH⟩ := hL
  obtain ⟨hlib, hout⟩ := h
  obtain ⟨h1, h2, h3⟩ := hH g.lib.1 jd 0 dlat dlon ihsy f.cusps f.ascmc g.cusps g.ascmc
  obtain ⟨f1, f2⟩ := houses_record H E jd f
  obtain ⟨g1, g2⟩ := houses_record H E jd g
  have hev : ∀ (c : Int) (cu : Fin 13 → Double) (am : Fin 10 → Double) (l : List Event),
      output (Event.swe_houses_ex jd 0 21.3 (-157.86666667) 80 c cu am :: l) = output l :=
    fun _ _ _ _ => rfl
  rw [f1, f2, g1, g2, output_append, output_append, hev, hev, output_epilogue, output_epilogue,
    hlib, hout, h1]
  refine ⟨?_, rfl⟩
  split
  · rfl
  · rename_i hpos
    obtain ⟨hc, ha⟩ := h3 (by rw [h1]; omega)
    rw [h2, cuspLines_congr _ _ 12 hc, ha 0 (by decide), ha 1 (by decide)]

theorem houses_overwriteUnused {σ : Type} (H : Swephexp) (E : Lib σ) (v : Double)
    (w : Fin 10 → Double) (jd : Double) (f : Frame (σ × List Event)) :
    output (houses H (spy (overwriteUnused E v w)) jd f).final.lib.2 =
      output (houses H (spy E) jd f).final.lib.2 ∧
    (houses H (spy (overwriteUnused E v w)) jd f).exit = (houses H (spy E) jd f).exit := by
  obtain ⟨f1, f2⟩ := houses_record H (overwriteUnused E v w) jd f
  obtain ⟨g1, g2⟩ := houses_record H E jd f
  have hev : ∀ (c : Int) (cu : Fin 13 → Double) (am : Fin 10 → Double) (l : List Event),
      output (Event.swe_houses_ex jd 0 21.3 (-157.86666667) 80 c cu am :: l) = output l :=
    fun _ _ _ _ => rfl
  rw [f1, f2, g1, g2, output_append, output_append, hev, hev, output_epilogue, output_epilogue]
  refine ⟨?_, rfl⟩
  congr 1

theorem cuspLines_twelve (cusps : Fin 13 → Double) :
    cuspLines cusps 12 = twelveCuspLines cusps := rfl

/-! ## The claims -/

/-- C1: in every run the library receives one `swe_houses_ex` call, and before
it `main` prints no `Ascendant ... MC` line, no `House system` line, no `cusp`
line and no failure message and does not call `swe_house_name`. If the call
returned a negative code `c`, the one thing `main` does after it is to print
the failure message (a non-empty text) with `c` in it, and it returns `ERR`: no
`Ascendant ... MC` line, no `House system` line and no `cusp` line is printed
and `swe_house_name` is never called. If the call returned a non-negative code,
`main` prints the `Ascendant ... MC` line, calls `swe_house_name`, prints the
`House system` line, twelve `cusp` lines and an empty line, and returns `OK`. -/
theorem houses_failure_is_terminal {σ : Type} (H : Swephexp) (E : Lib σ) (s : σ)
    (stk : Locals) (argc : Int) (argv : List String) :
    ∃ (pre post : List Event) (jd : Double) (c : Int) (cusps : Fin 13 → Double)
      (ascmc : Fin 10 → Double),
      record H E s stk argc argv =
        pre ++ Event.swe_houses_ex jd 0 21.3 (-157.86666667) 80 c cusps ascmc :: post ∧
      (record H E s stk argc argv).filterMap houseCode = [c] ∧
      pre.countP isHouseName = 0 ∧ pre.countP (isPrintf fmtAsc) = 0 ∧
      pre.countP (isPrintf fmtHsys) = 0 ∧ pre.countP (isPrintf fmtCusp) = 0 ∧
      pre.countP (isPrintf fmtHouseErr) = 0 ∧
      (c < 0 →
        post = [Event.printf fmtHouseErr [Arg.int c]] ∧ fmtHouseErr ≠ "" ∧
        (main H E s stk argc argv).exit = H.ERR) ∧
      (0 ≤ c →
        (∃ hname : List Char,
          post = [Event.printf fmtAsc [Arg.dbl (ascmc 0), Arg.dbl (ascmc 1)],
            Event.swe_house_name 80 hname,
            Event.printf fmtHsys [Arg.str (cstr hname)]] ++ twelveCuspLines cusps ++
            [Event.printf fmtEnd []]) ∧
        (main H E s stk argc argv).exit = H.OK) := by
  obtain ⟨jd, rows, c, cusps, ascmc, hname, -, hT, hX⟩ := main_shape H E s stk argc argv
  have ra := rowsEvents_isPrintf_zero fmtAsc jd (Int.lor H.SEFLG_SWIEPH H.SEFLG_SPEED) rows 0
    (by decide) (by decide) (by decide)
  have rh := rowsEvents_isPrintf_zero fmtHsys jd (Int.lor H.SEFLG_SWIEPH H.SEFLG_SPEED) rows 0
    (by decide) (by decide) (by decide)
  have rc := rowsEvents_isPrintf_zero fmtCusp jd (Int.lor H.SEFLG_SWIEPH H.SEFLG_SPEED) rows 0
    (by decide) (by decide) (by decide)
  have re := rowsEvents_isPrintf_zero fmtHouseErr jd (Int.lor H.SEFLG_SWIEPH H.SEFLG_SPEED)
    rows 0 (by decide) (by decide) (by decide)
  have rn := rowsEvents_countP_zero isHouseName jd (Int.lor H.SEFLG_SWIEPH H.SEFLG_SPEED) rows 0
    (rowEvents_countP_zero _ _ _ (by simp [isHouseName]) (by simp [isHouseName])
      (by simp [isHouseName]) (by simp [isHouseName]) (by simp [isHouseName]))
  have p1 : (prologue H jd).countP isHouseName = 0 := rfl
  have p2 : (prologue H jd).countP (isPrintf fmtAsc) = 0 := rfl
  have p3 : (prologue H jd).countP (isPrintf fmtHsys) = 0 := rfl
  have p4 : (prologue H jd).countP (isPrintf fmtCusp) = 0 := rfl
  have p5 : (prologue H jd).countP (isPrintf fmtHouseErr) = 0 := rfl
  refine ⟨prologue H jd ++ rowsEvents jd (Int.lor H.SEFLG_SWIEPH H.SEFLG_SPEED) 0 rows,
    epilogue c cusps ascmc hname, jd, c, cusps, ascmc, hT,
    main_houseCode H E s stk argc argv jd rows c cusps ascmc hname hT,
    by rw [List.countP_append, p1, rn], by rw [List.countP_append, p2, ra],
    by rw [List.countP_append, p3, rh], by rw [List.countP_append, p4, rc],
    by rw [List.countP_append, p5, re], ?_, ?_⟩
  · intro hc
    refine ⟨by simp [epilogue, hc], by decide, by rw [hX, if_pos hc]⟩
  · intro hc
    refine ⟨⟨hname, ?_⟩, by rw [hX, if_neg (by omega)]⟩
    rw [← cuspLines_twelve]
    simp [epilogue, not_lt.mpr hc]

/-- C1 at two runs. Against a library whose house computation returns -1, the
failure message with -1 is the last event, `main` returns `ERR`, no cusp line is
printed and `swe_house_name` is not called. Against a library whose house
computation returns 0, `main` returns `OK`, `swe_house_name` is called once and
the twelve cusp lines are printed. -/
theorem houses_failure_is_terminal_witness :
    ((record H0 libNoHouses () stk0 0 []).filterMap houseCode = [-1] ∧
      (record H0 libNoHouses () stk0 0 []).getLast? =
        some (Event.printf fmtHouseErr [Arg.int (-1)]) ∧
      (main H0 libNoHouses () stk0 0 []).exit = H0.ERR ∧
      (record H0 libNoHouses () stk0 0 []).countP (isPrintf fmtAsc) = 0 ∧
      (record H0 libNoHouses () stk0 0 []).countP (isPrintf fmtHsys) = 0 ∧
      (record H0 libNoHouses () stk0 0 []).countP (isPrintf fmtCusp) = 0 ∧
      (record H0 libNoHouses () stk0 0 []).countP isHouseName = 0) ∧
    ((record H0 libGood () stk0 0 []).filterMap houseCode = [0] ∧
      (main H0 libGood () stk0 0 []).exit = H0.OK ∧
      (record H0 libGood () stk0 0 []).countP (isPrintf fmtAsc) = 1 ∧
      (record H0 libGood () stk0 0 []).countP (isPrintf fmtHsys) = 1 ∧
      (record H0 libGood () stk0 0 []).countP (isPrintf fmtCusp) = 12 ∧
      (record H0 libGood () stk0 0 []).countP isHouseName = 1) := by
  constructor
  · obtain ⟨pre, post, jd, c, cusps, ascmc, -, hc, -, -, -, -, -, hneg, -⟩ :=
      houses_failure_is_terminal H0 libNoHouses () stk0 0 []
    have h1 : (record H0 libNoHouses () stk0 0 []).filterMap houseCode = [-1] := by
      simp only [record, main, planets, houses,
        forUpTo_eq_foldl _ 12 SE_SUN SE_TRUE_NODE _ (by decide),
        forUpTo_eq_foldl _ 12 1 12 _ (by decide)]
      decide
    have hc1 : c = -1 := by
      rw [h1] at hc
      simpa using hc.symm
    subst hc1
    refine ⟨h1, ?_, (hneg (by decide)).2.2, ?_⟩
    all_goals
      simp only [record, main, planets, houses,
        forUpTo_eq_foldl _ 12 SE_SUN SE_TRUE_NODE _ (by decide),
        forUpTo_eq_foldl _ 12 1 12 _ (by decide)]
      decide
  · obtain ⟨pre, post, jd, c, cusps, ascmc, -, hc, -, -, -, -, -, -, hpos⟩ :=
      houses_failure_is_terminal H0 libGood () stk0 0 []
    have h1 : (record H0 libGood () stk0 0 []).filterMap houseCode = [0] := by
      simp only [record, main, planets, houses,
        forUpTo_eq_foldl _ 12 SE_SUN SE_TRUE_NODE _ (by decide),
        forUpTo_eq_foldl _ 12 1 12 _ (by decide)]
      decide
    have hc1 : c = 0 := by
      rw [h1] at hc
      simpa using hc.symm
    subst hc1
    refine ⟨h1, (hpos (by decide)).2, ?_⟩
    simp only [record, main, planets, houses,
      forUpTo_eq_foldl _ 12 SE_SUN SE_TRUE_NODE _ (by decide),
      forUpTo_eq_foldl _ 12 1 12 _ (by decide)]
    decide

/-- C2: the library receives the `swe_calc_ut` calls for the bodies
`SE_SUN .. SE_TRUE_NODE`, in this order, and one `swe_houses_ex` call, whatever
it returns. If it returned a negative code from the call for a body `k`, the
next thing `main` does is to print `iret=%d, %s` with that code and the error
string the call left in `serr`; after that the library receives the
`swe_calc_ut` calls for `k + 1, ..., SE_TRUE_NODE`, in this order and no other,
and the `swe_houses_ex` call. -/
theorem planet_failure_not_fatal {σ : Type} (H : Swephexp) (E : Lib σ) (s : σ)
    (stk : Locals) (argc : Int) (argv : List String) :
    (record H E s stk argc argv).filterMap calcId = idsFromTo SE_SUN SE_TRUE_NODE ∧
    (record H E s stk argc argv).countP isHouses = 1 ∧
    ∀ (jd : Double) (k iflag iret : Int) (xx : Fin 6 → Double) (serr : List Char),
      Event.swe_calc_ut jd k iflag iret xx serr ∈ record H E s stk argc argv →
      iret < 0 →
      ∃ pre post : List Event,
        record H E s stk argc argv =
          pre ++ Event.swe_calc_ut jd k iflag iret xx serr ::
            Event.printf fmtIret [Arg.int iret, Arg.str (cstr serr)] :: post ∧
        post.filterMap calcId = idsFromTo (k + 1) SE_TRUE_NODE ∧
        post.countP isHouses = 1 ∧
        SE_SUN ≤ k ∧ k ≤ SE_TRUE_NODE := by
  refine ⟨?_, (calls_in_trace H E s stk argc argv).2, ?_⟩
  · obtain ⟨jd, rows, c, cusps, ascmc, hname, hlen, hT, -⟩ := main_shape H E s stk argc argv
    have e4 := epilogue_filterMap_nil calcId c cusps ascmc hname (by simp [calcId])
      (by simp [calcId])
    rw [hT, idsFromTo_bodies]
    simp only [List.filterMap_append, List.filterMap_cons, rowsEvents_calcId, hlen, e4, prologue,
      calcId, List.filterMap_nil, List.nil_append, List.append_nil]
    rfl
  intro jd k iflag iret xx serr he hneg
  obtain ⟨jd0, rows, c, cusps, ascmc, hname, hlen, hT, -⟩ := main_shape H E s stk argc argv
  rw [hT] at he
  obtain ⟨j, r, hj, rfl, rfl, rfl, rfl, rfl, rfl⟩ := calc_event_located he
  obtain ⟨hsplit, hA, hB⟩ :=
    rowsEvents_split jd (Int.lor H.SEFLG_SWIEPH H.SEFLG_SPEED) rows 0 j r hj
  have hjlt : j < 12 := by
    obtain ⟨h, -⟩ := List.getElem?_eq_some.mp hj
    omega
  refine ⟨prologue H jd ++ rowsEvents jd (Int.lor H.SEFLG_SWIEPH H.SEFLG_SPEED) 0 (rows.take j) ++
      [Event.swe_get_planet_name j r.spname,
        Event.printf fmtName [Arg.str ((cstr r.spname).take 7)]],
    Event.printf fmtRow [Arg.dbl (r.xx 0), Arg.dbl (r.xx 1), Arg.dbl (r.xx 2), Arg.dbl (r.xx 3)] ::
      (rowsEvents jd (Int.lor H.SEFLG_SWIEPH H.SEFLG_SPEED) (0 + (j : Int) + 1)
        (rows.drop (j + 1)) ++
      Event.swe_houses_ex jd 0 21.3 (-157.86666667) 80 c cusps ascmc ::
        epilogue c cusps ascmc hname), ?_, ?_, ?_, ?_, ?_⟩
  · rw [hT, hsplit]
    simp [rowEvents, hneg]
  · have e4 := epilogue_filterMap_nil calcId c cusps ascmc hname (by simp [calcId])
      (by simp [calcId])
    simp only [List.filterMap_cons, List.filterMap_append, rowsEvents_calcId, e4, calcId,
      List.append_nil, idsFromTo, hB, hlen, SE_TRUE_NODE]
    have : (11 + 1 - ((j : Int) + 1)).toNat = 12 - (j + 1) := by omega
    rw [this]
    apply List.map_congr_left
    intro a _
    ring
  · have r2 := rowsEvents_countP_zero isHouses jd (Int.lor H.SEFLG_SWIEPH H.SEFLG_SPEED)
      (rows.drop (j + 1)) (0 + (j : Int) + 1)
      (rowEvents_countP_zero _ _ _ (by simp [isHouses]) (by simp [isHouses]) (by simp [isHouses])
        (by simp [isHouses]) (by simp [isHouses]))
    have e2 := epilogue_countP_zero isHouses c cusps ascmc hname (by simp [isHouses])
      (by simp [isHouses]) (by simp [isHouses]) (by simp [isHouses]) (by simp [isHouses])
      (by simp [isHouses])
    rw [zero_add] at r2
    simp [List.countP_append, List.countP_cons, r2, e2, isHouses]
  · simp [SE_SUN]
  · simp only [SE_TRUE_NODE]; omega

/-- C2 at a run in which every position call fails: the failed call for the
Sun, which the library received with the failing code -1 and the error string
`no file`, is followed by its diagnostic, by the calls for the bodies 1 to 11
and by the house computation. -/
theorem planet_failure_not_fatal_witness :
    ∃ pre post : List Event,
      record H0 libFail () stk0 0 [] =
        pre ++ Event.swe_calc_ut 2437516.725 0 258 (-1) stk0.xx "no file".toList ::
          Event.printf fmtIret [Arg.int (-1), Arg.str "no file".toList] :: post ∧
      post.filterMap calcId = [1, 2, 3, 4, 5, 6, 7, 8, 9, 10, 11] ∧
      post.countP isHouses = 1 ∧
      SE_SUN ≤ 0 ∧ 0 ≤ SE_TRUE_NODE :=
  (planet_failure_not_fatal H0 libFail () stk0 0 []).2.2 2437516.725 0 258 (-1) stk0.xx
    "no file".toList
    (by
      simp only [record, main, planets, houses,
        forUpTo_eq_foldl _ 12 SE_SUN SE_TRUE_NODE _ (by decide),
        forUpTo_eq_foldl _ 12 1 12 _ (by decide)]
      decide)
    (by decide)

theorem rowsEvents_countP_fmtName (jd : Double) (iflag : Int) (rows : List PlanetRow)
    (lo : Int) :
    (rowsEvents jd iflag lo rows).countP (isPrintf fmtName) = rows.length := by
  apply rowsEvents_countP_one
  intro ipl r
  unfold rowEvents
  split <;> rfl

/-- C3, as the code has it: whatever the position calls return, `main` prints
twelve coordinate rows and twelve names. For each body identifier `k` of 0..11
the record holds the block of body `k`: the name lookup for `k`, the printing of
the first 7 characters of the name that lookup left in `spname`, the position
call for `k`, the diagnostic if the call failed, and the coordinate row with
`xx[0]`, `xx[1]`, `xx[2]`, `xx[3]` as they are after that call; exactly `k`
coordinate rows come before the block, so the rows are in the order of the body
identifiers. -/
theorem twelve_body_rows {σ : Type} (H : Swephexp) (E : Lib σ) (s : σ) (stk : Locals)
    (argc : Int) (argv : List String) :
    (record H E s stk argc argv).countP (isPrintf fmtRow) = 12 ∧
    (record H E s stk argc argv).countP (isPrintf fmtName) = 12 ∧
    ∀ k : Nat, k < 12 →
      ∃ (pre post : List Event) (name : List Char) (jd : Double) (iflag iret : Int)
        (xx : Fin 6 → Double) (serr : List Char),
        record H E s stk argc argv =
          pre ++
            [Event.swe_get_planet_name (k : Int) name,
             Event.printf fmtName [Arg.str ((cstr name).take 7)],
             Event.swe_calc_ut jd (k : Int) iflag iret xx serr] ++
            (if iret < 0 then [Event.printf fmtIret [Arg.int iret, Arg.str (cstr serr)]]
              else []) ++
            [Event.printf fmtRow [Arg.dbl (xx 0), Arg.dbl (xx 1), Arg.dbl (xx 2), Arg.dbl (xx 3)]] ++
            post ∧
        pre.countP (isPrintf fmtRow) = k := by
  obtain ⟨jd, rows, c, cusps, ascmc, hname, hlen, hT, -⟩ := main_shape H E s stk argc argv
  refine ⟨?_, ?_, ?_⟩
  · have e := epilogue_countP_zero (isPrintf fmtRow) c cusps ascmc hname (fun _ => rfl)
      (fun _ => rfl) (fun _ _ => rfl) (fun _ => rfl) (fun _ => rfl) (fun _ => rfl)
    rw [hT]
    simp only [List.countP_append, List.countP_cons, rowsEvents_countP_fmtRow, hlen, e]
    rfl
  · have e := epilogue_countP_zero (isPrintf fmtName) c cusps ascmc hname (fun _ => rfl)
      (fun _ => rfl) (fun _ _ => rfl) (fun _ => rfl) (fun _ => rfl) (fun _ => rfl)
    rw [hT]
    simp only [List.countP_append, List.countP_cons, rowsEvents_countP_fmtName, hlen, e]
    rfl
  · intro k hk
    have hk2 : k < rows.length := by omega
    obtain ⟨hsplit, hA, -⟩ := rowsEvents_split jd (Int.lor H.SEFLG_SWIEPH H.SEFLG_SPEED) rows 0 k
      rows[k] (List.getElem?_eq_getElem hk2)
    refine ⟨prologue H jd ++ rowsEvents jd (Int.lor H.SEFLG_SWIEPH H.SEFLG_SPEED) 0 (rows.take k),
      rowsEvents jd (Int.lor H.SEFLG_SWIEPH H.SEFLG_SPEED) (0 + (k : Int) + 1)
          (rows.drop (k + 1)) ++
        Event.swe_houses_ex jd 0 21.3 (-157.86666667) 80 c cusps ascmc ::
          epilogue c cusps ascmc hname,
      rows[k].spname, jd, Int.lor H.SEFLG_SWIEPH H.SEFLG_SPEED, rows[k].iret, rows[k].xx,
      rows[k].serr, ?_, ?_⟩
    · rw [hT, hsplit]
      simp [rowEvents, List.append_assoc]
    · rw [List.countP_append, rowsEvents_countP_fmtRow, hA]
      have : (prologue H jd).countP (isPrintf fmtRow) = 0 := rfl
      omega

set_option maxRecDepth 20000 in
/-- C3, as the code has it, at a run in which all calls succeed: twelve rows,
and the block of the true node (body 11) as the library saw it: the name
`true Node` looked up, `true No` printed, the position call, and the row with
the 4.5 the call wrote. -/
theorem twelve_body_rows_witness :
    (record H0 libGood () stk1 0 []).countP (isPrintf fmtRow) = 12 ∧
    [Event.swe_get_planet_name 11 "true Node".toList,
      Event.printf fmtName [Arg.str "true No".toList],
      Event.swe_calc_ut 2437516.725 11 258 0 (fun _ => 4.5) [],
      Event.printf fmtRow [Arg.dbl 4.5, Arg.dbl 4.5, Arg.dbl 4.5, Arg.dbl 4.5]] <:+:
        record H0 libGood () stk1 0 [] := by
  refine ⟨(twelve_body_rows H0 libGood () stk1 0 []).1, ?_⟩
  simp only [record, main, planets, houses,
    forUpTo_eq_foldl _ 12 SE_SUN SE_TRUE_NODE _ (by decide),
    forUpTo_eq_foldl _ 12 1 12 _ (by decide)]
  decide

/-- C3 as stated fails. Against a library that calls every body `true Node`
and whose position call fails and writes nothing to `xx`, in a run that starts
with 1.5 in `xx`: the name the lookup for the Sun returned, `true Node`, is
never printed (`true No` is), and the row of the Sun shows 1.5, which is what
`xx` held when `main` started and not a longitude, latitude, distance or speed
of that call. -/
theorem rows_show_cut_names_and_stale_xx :
    Event.swe_get_planet_name 0 "true Node".toList ∈ record H0 libFail () stk1 0 [] ∧
    Event.printf fmtName [Arg.str "true Node".toList] ∉ record H0 libFail () stk1 0 [] ∧
    (∀ st jd ipl iflag xx serr, (libFail.swe_calc_ut st jd ipl iflag xx serr).xx = xx) ∧
    stk1.xx = (fun _ => 1.5) ∧
    [Event.swe_get_planet_name 0 "true Node".toList,
      Event.printf fmtName [Arg.str "true No".toList],
      Event.swe_calc_ut 2437516.725 0 258 (-1) stk1.xx "no file".toList,
      Event.printf fmtIret [Arg.int (-1), Arg.str "no file".toList],
      Event.printf fmtRow [Arg.dbl 1.5, Arg.dbl 1.5, Arg.dbl 1.5, Arg.dbl 1.5]] <:+:
        record H0 libFail () stk1 0 [] := by
  refine ⟨?_, ?_, fun _ _ _ _ _ _ => rfl, rfl, ?_⟩
  all_goals
    simp only [record, main, planets, houses,
      forUpTo_eq_foldl _ 12 SE_SUN SE_TRUE_NODE _ (by decide),
      forUpTo_eq_foldl _ 12 1 12 _ (by decide)]
    decide

/-- C4: the value `main` returns is decided by the code the library returned
from the (one) `swe_houses_ex` call alone: it is `ERR` when that code is
negative and `OK` otherwise, whatever the `swe_calc_ut` calls returned. With
`OK` and `ERR` two different numbers, `main` returns `OK` exactly when the code
is non-negative and `ERR` exactly when it is negative. -/
theorem exit_code_follows_houses {σ : Type} (H : Swephexp) (E : Lib σ) (s : σ)
    (stk : Locals) (argc : Int) (argv : List String) :
    ∃ c : Int, (record H E s stk argc argv).filterMap houseCode = [c] ∧
      (c < 0 → (main H E s stk argc argv).exit = H.ERR) ∧
      (0 ≤ c → (main H E s stk argc argv).exit = H.OK) ∧
      (H.OK ≠ H.ERR →
        ((main H E s stk argc argv).exit = H.OK ↔ 0 ≤ c) ∧
        ((main H E s stk argc argv).exit = H.ERR ↔ c < 0)) := by
  obtain ⟨jd, rows, c, cusps, ascmc, hname, -, hT, hX⟩ := main_shape H E s stk argc argv
  refine ⟨c, main_houseCode H E s stk argc argv jd rows c cusps ascmc hname hT, ?_, ?_, ?_⟩
  · intro hc
    rw [hX, if_pos hc]
  · intro hc
    rw [hX, if_neg (by omega)]
  · intro hne
    rw [hX]
    split
    · refine ⟨⟨fun h => absurd h.symm hne, fun h => by omega⟩, ⟨fun _ => by assumption, fun _ => rfl⟩⟩
    · refine ⟨⟨fun _ => by omega, fun _ => rfl⟩, ⟨fun h => absurd h hne, fun h => by omega⟩⟩

/-- C4 at two runs, under a header with `OK = 0` and `ERR = -1`. When all
twelve position calls fail and the house computation returns 0, `main` returns
`OK`; when all position calls succeed and the house computation returns -1,
`main` returns `ERR`. -/
theorem exit_code_follows_houses_witness :
    H0.OK ≠ H0.ERR ∧
    ((record H0 libFail () stk0 0 []).countP isFailedCalc = 12 ∧
      (record H0 libFail () stk0 0 []).filterMap houseCode = [0] ∧
      (main H0 libFail () stk0 0 []).exit = H0.OK) ∧
    ((record H0 libNoHouses () stk0 0 []).countP isFailedCalc = 0 ∧
      (record H0 libNoHouses () stk0 0 []).filterMap houseCode = [-1] ∧
      (main H0 libNoHouses () stk0 0 []).exit = H0.ERR) := by
  have h1 : (record H0 libFail () stk0 0 []).filterMap houseCode = [0] := by
    simp only [record, main, planets, houses,
      forUpTo_eq_foldl _ 12 SE_SUN SE_TRUE_NODE _ (by decide),
      forUpTo_eq_foldl _ 12 1 12 _ (by decide)]
    decide
  have h2 : (record H0 libNoHouses () stk0 0 []).filterMap houseCode = [-1] := by
    simp only [record, main, planets, houses,
      forUpTo_eq_foldl _ 12 SE_SUN SE_TRUE_NODE _ (by decide),
      forUpTo_eq_foldl _ 12 1 12 _ (by decide)]
    decide
  obtain ⟨c, hc, -, hpos, -⟩ := exit_code_follows_houses H0 libFail () stk0 0 []
  obtain ⟨d, hd, hneg, -, -⟩ := exit_code_follows_houses H0 libNoHouses () stk0 0 []
  have hc0 : c = 0 := by
    rw [h1] at hc
    simpa using hc.symm
  have hd0 : d = -1 := by
    rw [h2] at hd
    simpa using hd.symm
  subst hc0 hd0
  refine ⟨by decide, ⟨?_, h1, hpos (by decide)⟩, ⟨?_, h2, hneg (by decide)⟩⟩
  all_goals
    simp only [record, main, planets, houses,
      forUpTo_eq_foldl _ 12 SE_SUN SE_TRUE_NODE _ (by decide),
      forUpTo_eq_foldl _ 12 1 12 _ (by decide)]
    decide

/-- C5: in every run, whatever it returns, the library receives one
`swe_julday` call, one `swe_calc_ut` call and one `swe_get_planet_name` call for
each of the body identifiers `SE_SUN .. SE_TRUE_NODE`, in that order (none
twice, none left out), one `swe_houses_ex` call, and at most one
`swe_house_name` call. -/
theorem each_call_once {σ : Type} (H : Swephexp) (E : Lib σ) (s : σ) (stk : Locals)
    (argc : Int) (argv : List String) :
    (record H E s stk argc argv).countP isJulday = 1 ∧
    (record H E s stk argc argv).filterMap calcId = idsFromTo SE_SUN SE_TRUE_NODE ∧
    (record H E s stk argc argv).filterMap nameId = idsFromTo SE_SUN SE_TRUE_NODE ∧
    (record H E s stk argc argv).countP isHouses = 1 ∧
    (record H E s stk argc argv).countP isHouseName ≤ 1 := by
  obtain ⟨h1, h4⟩ := calls_in_trace H E s stk argc argv
  refine ⟨h1, ?_, ?_, h4, ?_⟩
  all_goals
    obtain ⟨jd, rows, c, cusps, ascmc, hname, hlen, hT, -⟩ := main_shape H E s stk argc argv
    rw [hT]
  · have e4 := epilogue_filterMap_nil calcId c cusps ascmc hname (by simp [calcId])
      (by simp [calcId])
    rw [idsFromTo_bodies]
    simp only [List.filterMap_append, List.filterMap_cons, rowsEvents_calcId, hlen, e4, prologue,
      calcId, List.filterMap_nil, List.nil_append, List.append_nil]
    rfl
  · have e5 := epilogue_filterMap_nil nameId c cusps ascmc hname (by simp [nameId])
      (by simp [nameId])
    rw [idsFromTo_bodies]
    simp only [List.filterMap_append, List.filterMap_cons, rowsEvents_nameId, hlen, e5, prologue,
      nameId, List.filterMap_nil, List.nil_append, List.append_nil]
    rfl
  · have r3 := rowsEvents_countP_zero isHouseName jd (Int.lor H.SEFLG_SWIEPH H.SEFLG_SPEED)
      rows 0
      (rowEvents_countP_zero _ _ _ (by simp [isHouseName]) (by simp [isHouseName])
        (by simp [isHouseName]) (by simp [isHouseName]) (by simp [isHouseName]))
    have e3 : (epilogue c cusps ascmc hname).countP isHouseName ≤ 1 := by
      unfold epilogue
      split
      · simp [List.countP_cons, isHouseName]
      · have : (cuspLines cusps 12).countP isHouseName = 0 := by
          rw [List.countP_eq_zero]
          intro e he
          simp only [cuspLines, List.mem_map] at he
          obtain ⟨k, _, rfl⟩ := he
          simp [isHouseName]
        simp [List.countP_append, List.countP_cons, isHouseName, this]
    simpa [List.countP_append, List.countP_cons, r3, prologue, isHouseName] using e3

/-- C5 at a run in which every position call fails: the library still receives
each position call once, for the bodies 0 to 11 in order, twelve calls in all,
and all twelve fail. -/
theorem each_call_once_witness :
    (record H0 libFail () stk0 0 []).countP isFailedCalc = 12 ∧
    (record H0 libFail () stk0 0 []).countP isCalc = 12 ∧
    (record H0 libFail () stk0 0 []).countP isJulday = 1 ∧
    (record H0 libFail () stk0 0 []).filterMap calcId = [0, 1, 2, 3, 4, 5, 6, 7, 8, 9, 10, 11] ∧
    (record H0 libFail () stk0 0 []).filterMap nameId = [0, 1, 2, 3, 4, 5, 6, 7, 8, 9, 10, 11] ∧
    (record H0 libFail () stk0 0 []).countP isHouses = 1 := by
  obtain ⟨h1, h2, h3, h4, -⟩ := each_call_once H0 libFail () stk0 0 []
  rw [idsFromTo_bodies] at h2 h3
  refine ⟨?_, ?_, h1, h2, h3, h4⟩
  all_goals
    simp only [record, main, planets, houses,
      forUpTo_eq_foldl _ 12 SE_SUN SE_TRUE_NODE _ (by decide),
      forUpTo_eq_foldl _ 12 1 12 _ (by decide)]
    decide

/-- C6, as the code has it: the planet loop runs over the twelve body
identifiers `SE_SUN .. SE_TRUE_NODE`, so in one run of `main` the library
receives twelve `swe_calc_ut` calls, for the bodies 0 to 11, whatever it
returns. -/
theorem twelve_position_calls {σ : Type} (H : Swephexp) (E : Lib σ) (s : σ) (stk : Locals)
    (argc : Int) (argv : List String) :
    (record H E s stk argc argv).countP isCalc = 12 ∧
    (record H E s stk argc argv).filterMap calcId = [0, 1, 2, 3, 4, 5, 6, 7, 8, 9, 10, 11] := by
  refine ⟨calc_count H E s stk argc argv, ?_⟩
  obtain ⟨jd, rows, c, cusps, ascmc, hname, hlen, hT, -⟩ := main_shape H E s stk argc argv
  have h2 := epilogue_filterMap_nil calcId c cusps ascmc hname (by simp [calcId])
    (by simp [calcId])
  rw [hT]
  simp only [List.filterMap_append, List.filterMap_cons, rowsEvents_calcId, hlen, h2, prologue,
    calcId, List.filterMap_nil, List.nil_append, List.append_nil]
  rfl

/-- C6 as stated fails: in a run against a library whose calls all succeed, the
number of `swe_calc_ut` calls the library receives is 12, not 11. -/
theorem eleven_position_calls_refuted :
    (record H0 libGood () stk0 0 []).countP isCalc = 12 ∧
    (record H0 libGood () stk0 0 []).countP isCalc ≠ 11 := by
  simp only [record, main, planets, houses,
    forUpTo_eq_foldl _ 12 SE_SUN SE_TRUE_NODE _ (by decide),
    forUpTo_eq_foldl _ 12 1 12 _ (by decide)]
  decide


theorem planets_overwriteUnused {σ : Type} (H : Swephexp) (E : Lib σ) (v : Double)
    (w : Fin 10 → Double) (jd : Double) (f : Frame (σ × List Event)) :
    planets H (spy (overwriteUnused E v w)) jd f = planets H (spy E) jd f := rfl

theorem main_overwriteUnused {σ : Type} (H : Swephexp) (E : Lib σ) (s : σ) (stk : Locals)
    (argc : Int) (argv : List String) (v : Double) (w : Fin 10 → Double) :
    output (record H (overwriteUnused E v w) s stk argc argv) =
      output (record H E s stk argc argv) ∧
    (main H (overwriteUnused E v w) s stk argc argv).exit = (main H E s stk argc argv).exit := by
  rw [← (main_unspied H E s [] stk argc argv).1,
    ← (main_unspied H (overwriteUnused E v w) s [] stk argc argv).1]
  simp only [record, main]
  rw [planets_overwriteUnused]
  exact houses_overwriteUnused H E v w _ _

/-- C7: when the library returned a non-negative code from the house
computation and left `cusps` and `ascmc`, `main` prints twelve cusp lines, for
the house numbers 1 to 12 in ascending order, the line of house `i` showing
`cusps[i]`, and one `Ascendant ... MC` line showing `ascmc[0]` and `ascmc[1]`.
What `main` prints and returns does not change when the house computation
leaves other numbers in `cusps[0]` and `ascmc[2..9]`. -/
theorem cusp_lines {σ : Type} (H : Swephexp) (E : Lib σ) (s : σ) (stk : Locals)
    (argc : Int) (argv : List String) :
    (∀ jd iflag geolat geolon hsys iret cusps ascmc,
      Event.swe_houses_ex jd iflag geolat geolon hsys iret cusps ascmc ∈
        record H E s stk argc argv →
      0 ≤ iret →
      (record H E s stk argc argv).filter (isPrintf fmtCusp) =
        [Event.printf fmtCusp [Arg.int 1, Arg.dbl (cusps 1)],
         Event.printf fmtCusp [Arg.int 2, Arg.dbl (cusps 2)],
         Event.printf fmtCusp [Arg.int 3, Arg.dbl (cusps 3)],
         Event.printf fmtCusp [Arg.int 4, Arg.dbl (cusps 4)],
         Event.printf fmtCusp [Arg.int 5, Arg.dbl (cusps 5)],
         Event.printf fmtCusp [Arg.int 6, Arg.dbl (cusps 6)],
         Event.printf fmtCusp [Arg.int 7, Arg.dbl (cusps 7)],
         Event.printf fmtCusp [Arg.int 8, Arg.dbl (cusps 8)],
         Event.printf fmtCusp [Arg.int 9, Arg.dbl (cusps 9)],
         Event.printf fmtCusp [Arg.int 10, Arg.dbl (cusps 10)],
         Event.printf fmtCusp [Arg.int 11, Arg.dbl (cusps 11)],
         Event.printf fmtCusp [Arg.int 12, Arg.dbl (cusps 12)]] ∧
      (record H E s stk argc argv).filter (isPrintf fmtAsc) =
        [Event.printf fmtAsc [Arg.dbl (ascmc 0), Arg.dbl (ascmc 1)]]) ∧
    (∀ (v : Double) (w : Fin 10 → Double),
      output (record H (overwriteUnused E v w) s stk argc argv) =
        output (record H E s stk argc argv) ∧
      (main H (overwriteUnused E v w) s stk argc argv).exit =
        (main H E s stk argc argv).exit) := by
  constructor
  · obtain ⟨jd0, rows, c, cusps0, ascmc0, hname, -, hT, -⟩ := main_shape H E s stk argc argv
    intro jd iflag geolat geolon hsys iret cusps ascmc he hpos
    rw [hT] at he ⊢
    have hev : iret = c ∧ cusps = cusps0 ∧ ascmc = ascmc0 := by
      simp only [List.mem_append, List.mem_cons] at he
      rcases he with (hp | hr) | hh | hep
      · simp [prologue] at hp
      · obtain ⟨k, r, _, hk⟩ := mem_rowsEvents rows 0 hr
        rcases mem_rowEvents hk with h | h | h | ⟨_, h⟩ | h <;> simp at h
      · simp only [Event.swe_houses_ex.injEq] at hh
        exact ⟨hh.2.2.2.2.2.1, hh.2.2.2.2.2.2.1, hh.2.2.2.2.2.2.2⟩
      · rcases mem_epilogue hep with ⟨_, h⟩ | ⟨_, h | h | h | ⟨k, _, h⟩ | h⟩ <;> simp at h
    obtain ⟨rfl, rfl, rfl⟩ := hev
    have rc : (rowsEvents jd0 (Int.lor H.SEFLG_SWIEPH H.SEFLG_SPEED) 0 rows).filter
        (isPrintf fmtCusp) = [] := by
      exact List.eq_nil_of_length_eq_zero (by
        rw [← List.countP_eq_length_filter]
        exact rowsEvents_isPrintf_zero fmtCusp jd0 _ rows 0 (by decide) (by decide) (by decide))
    have ra : (rowsEvents jd0 (Int.lor H.SEFLG_SWIEPH H.SEFLG_SPEED) 0 rows).filter
        (isPrintf fmtAsc) = [] := by
      exact List.eq_nil_of_length_eq_zero (by
        rw [← List.countP_eq_length_filter]
        exact rowsEvents_isPrintf_zero fmtAsc jd0 _ rows 0 (by decide) (by decide) (by decide))
    have hep : epilogue iret cusps ascmc hname =
        [Event.printf fmtAsc [Arg.dbl (ascmc 0), Arg.dbl (ascmc 1)],
         Event.swe_house_name 80 hname,
         Event.printf fmtHsys [Arg.str (cstr hname)]] ++ cuspLines cusps 12 ++
          [Event.printf fmtEnd []] := by
      simp [epilogue, not_lt.mpr hpos]
    rw [hep]
    simp only [List.filter_append, List.filter_cons, rc, ra]
    exact ⟨rfl, rfl⟩
  · intro v w
    exact main_overwriteUnused H E s stk argc argv v w

/-- C7 at a run in which all calls succeed and the house computation leaves the
double with the bits `i` in `cusps[i]` and the double with the bits `100 + i`
in `ascmc[i]`: the cusp lines show the houses 1 to 12 with the doubles of the
bits 1 to 12, and the `Ascendant ... MC` line shows the doubles of the bits 100
and 101. -/
theorem cusp_lines_witness :
    (record H0 libGood () stk0 0 []).filter (isPrintf fmtCusp) =
      [Event.printf fmtCusp [Arg.int 1, Arg.dbl ⟨1⟩],
       Event.printf fmtCusp [Arg.int 2, Arg.dbl ⟨2⟩],
       Event.printf fmtCusp [Arg.int 3, Arg.dbl ⟨3⟩],
       Event.printf fmtCusp [Arg.int 4, Arg.dbl ⟨4⟩],
       Event.printf fmtCusp [Arg.int 5, Arg.dbl ⟨5⟩],
       Event.printf fmtCusp [Arg.int 6, Arg.dbl ⟨6⟩],
       Event.printf fmtCusp [Arg.int 7, Arg.dbl ⟨7⟩],
       Event.printf fmtCusp [Arg.int 8, Arg.dbl ⟨8⟩],
       Event.printf fmtCusp [Arg.int 9, Arg.dbl ⟨9⟩],
       Event.printf fmtCusp [Arg.int 10, Arg.dbl ⟨10⟩],
       Event.printf fmtCusp [Arg.int 11, Arg.dbl ⟨11⟩],
       Event.printf fmtCusp [Arg.int 12, Arg.dbl ⟨12⟩]] ∧
    (record H0 libGood () stk0 0 []).filter (isPrintf fmtAsc) =
      [Event.printf fmtAsc [Arg.dbl ⟨100⟩, Arg.dbl ⟨101⟩]] :=
  (cusp_lines H0 libGood () stk0 0 []).1 2437516.725 0 21.3 (-157.86666667) 80 0
    (fun i => ⟨i.val⟩) (fun i => ⟨100 + i.val⟩)
    (by
      simp only [record, main, planets, houses,
        forUpTo_eq_foldl _ 12 SE_SUN SE_TRUE_NODE _ (by decide),
        forUpTo_eq_foldl _ 12 1 12 _ (by decide)]
      decide)
    (by decide)

/-- C8: the library receives one `swe_julday` call, with the date 1961-08-05,
the hour 5.4 and `SE_GREG_CAL`; the value `jd` it returned from that call is
the Julian-day argument it receives in every `swe_calc_ut` call (there are
twelve) and in the (one) `swe_houses_ex` call; every `swe_calc_ut` call comes
with the flags `SEFLG_SWIEPH | SEFLG_SPEED`; `swe_houses_ex` comes with the
flags 0, the latitude 21.3, the longitude -157.86666667, in this order, and the
house system `P`. -/
theorem julian_day_threaded {σ : Type} (H : Swephexp) (E : Lib σ) (s : σ)
    (stk : Locals) (argc : Int) (argv : List String) :
    ∃ jd : Double,
      (record H E s stk argc argv).filter isJulday =
        [Event.swe_julday 1961 8 5 5.4 H.SE_GREG_CAL jd] ∧
      (record H E s stk argc argv).countP isCalc = 12 ∧
      (record H E s stk argc argv).countP isHouses = 1 ∧
      (∀ jd1 ipl iflag iret xx serr,
        Event.swe_calc_ut jd1 ipl iflag iret xx serr ∈ record H E s stk argc argv →
          jd1 = jd ∧ iflag = Int.lor H.SEFLG_SWIEPH H.SEFLG_SPEED) ∧
      (∀ jd1 iflag geolat geolon hsys iret cusps ascmc,
        Event.swe_houses_ex jd1 iflag geolat geolon hsys iret cusps ascmc ∈
            record H E s stk argc argv →
          jd1 = jd ∧ iflag = 0 ∧ geolat = 21.3 ∧ geolon = -157.86666667 ∧
            hsys = (('P'.toNat : Nat) : Int)) := by
  obtain ⟨-, h4⟩ := calls_in_trace H E s stk argc argv
  obtain ⟨jd, rows, c, cusps, ascmc, hname, hlen, hT, -⟩ := main_shape H E s stk argc argv
  refine ⟨jd, ?_, calc_count H E s stk argc argv, h4, ?_, ?_⟩
  · have r1 : (rowsEvents jd (Int.lor H.SEFLG_SWIEPH H.SEFLG_SPEED) 0 rows).filter isJulday
        = [] :=
      List.eq_nil_of_length_eq_zero (by
        rw [← List.countP_eq_length_filter]
        exact rowsEvents_countP_zero isJulday jd _ rows 0
          (rowEvents_countP_zero _ _ _ (by simp [isJulday]) (by simp [isJulday])
            (by simp [isJulday]) (by simp [isJulday]) (by simp [isJulday])))
    have e1 : (epilogue c cusps ascmc hname).filter isJulday = [] :=
      List.eq_nil_of_length_eq_zero (by
        rw [← List.countP_eq_length_filter]
        exact epilogue_countP_zero isJulday c cusps ascmc hname (by simp [isJulday])
          (by simp [isJulday]) (by simp [isJulday]) (by simp [isJulday]) (by simp [isJulday])
          (by simp [isJulday]))
    rw [hT]
    simp only [List.filter_append, List.filter_cons, r1, e1]
    rfl
  · intro jd1 ipl iflag iret xx serr he
    rw [hT] at he
    obtain ⟨j, r, -, -, h1, h2, -⟩ := calc_event_located he
    exact ⟨h1, h2⟩
  · intro jd1 iflag geolat geolon hsys iret cu am he
    rw [hT] at he
    simp only [List.mem_append, List.mem_cons] at he
    rcases he with (hp | hr) | hh | hep
    · simp [prologue] at hp
    · obtain ⟨k, r, _, hk⟩ := mem_rowsEvents rows 0 hr
      rcases mem_rowEvents hk with h | h | h | ⟨_, h⟩ | h <;> simp at h
    · simp only [Event.swe_houses_ex.injEq] at hh
      exact ⟨hh.1, hh.2.1, hh.2.2.1, hh.2.2.2.1, by rw [hh.2.2.2.2.1]; decide⟩
    · rcases mem_epilogue hep with ⟨_, h⟩ | ⟨_, h | h | h | ⟨k, _, h⟩ | h⟩ <;> simp at h

set_option maxRecDepth 20000 in
/-- C8 at a run against a library that returns the Julian day 2437516.725:
that is the Julian day the library receives in each of the twelve position
calls, with the flags 258 = 2 | 256, and in the house computation, which comes
with the flags 0, the latitude 21.3, the longitude -157.86666667 and the house
system 80 (the letter `P`). -/
theorem julian_day_threaded_witness :
    (record H0 libGood () stk0 0 []).filter isJulday =
      [Event.swe_julday 1961 8 5 5.4 1 2437516.725] ∧
    (record H0 libGood () stk0 0 []).countP isCalc = 12 ∧
    (∀ jd1 ipl iflag iret xx serr,
      Event.swe_calc_ut jd1 ipl iflag iret xx serr ∈ record H0 libGood () stk0 0 [] →
        jd1 = 2437516.725 ∧ iflag = 258) ∧
    (record H0 libGood () stk0 0 []).filter isHouses =
      [Event.swe_houses_ex 2437516.725 0 21.3 (-157.86666667) 80 0 (fun i => ⟨i.val⟩)
        (fun i => ⟨100 + i.val⟩)] := by
  obtain ⟨jd, h1, hc, -, hcalc, -⟩ := julian_day_threaded H0 libGood () stk0 0 []
  have e1 : (record H0 libGood () stk0 0 []).filter isJulday =
      [Event.swe_julday 1961 8 5 5.4 1 2437516.725] := by
    simp only [record, main, planets, houses,
      forUpTo_eq_foldl _ 12 SE_SUN SE_TRUE_NODE _ (by decide),
      forUpTo_eq_foldl _ 12 1 12 _ (by decide)]
    decide
  have hjd : jd = 2437516.725 := by
    rw [e1] at h1
    simp only [List.cons.injEq, Event.swe_julday.injEq, and_true, true_and] at h1
    exact h1.2.symm
  subst hjd
  refine ⟨e1, hc, fun jd1 ipl iflag iret xx serr he => hcalc jd1 ipl iflag iret xx serr he, ?_⟩
  simp only [record, main, planets, houses,
    forUpTo_eq_foldl _ 12 SE_SUN SE_TRUE_NODE _ (by decide),
    forUpTo_eq_foldl _ 12 1 12 _ (by decide)]
  decide

/-- C9, as the code has it. What `main` prints and returns is a function of
the header, the functions it calls, the state of the world and the contents of
the local buffers of `main` at its start; `argc` and `argv` play no part.
Against a library that writes what `main` reads and does not read what the
buffers of `main` held (`WritesResults`), the contents of the local buffers at
the start play no part either: two runs print the same and return the same,
also when position calls fail. -/
theorem output_determined {σ : Type} (H : Swephexp) (E : Lib σ) (s : σ)
    (stk : Locals) (argc : Int) (argv : List String) :
    (∀ (argc2 : Int) (argv2 : List String),
      record H E s stk argc2 argv2 = record H E s stk argc argv ∧
      (main H E s stk argc2 argv2).exit = (main H E s stk argc argv).exit) ∧
    (WritesResults E → ∀ (stk2 : Locals) (argc2 : Int) (argv2 : List String),
      output (record H E s stk2 argc2 argv2) = output (record H E s stk argc argv) ∧
      (main H E s stk2 argc2 argv2).exit = (main H E s stk argc argv).exit) := by
  refine ⟨fun _ _ => ⟨rfl, rfl⟩, ?_⟩
  intro hL stk2 argc2 argv2
  rw [← (main_unspied H E s [] stk argc argv).1, ← (main_unspied H E s [] stk2 argc2 argv2).1]
  simp only [record, main]
  apply houses_related H E hL
  apply planets_related H E hL
  exact ⟨rfl, rfl⟩

/-- C9, as the code has it, at a library whose position call fails for every
body and writes 0.0 to `xx` and `no file` to `serr` all the same: all twelve
position calls fail, and a run that starts with 1.5 in `xx` and other command
line arguments prints the same and returns the same as one that starts with
0.0. -/
theorem output_determined_witness :
    WritesResults libFailZero ∧
    (record H0 libFailZero () stk0 0 []).countP isFailedCalc = 12 ∧
    output (record H0 libFailZero () stk1 1 ["obama"]) =
      output (record H0 libFailZero () stk0 0 []) ∧
    (main H0 libFailZero () stk1 1 ["obama"]).exit = (main H0 libFailZero () stk0 0 []).exit := by
  refine ⟨by simp [WritesResults, libFailZero], ?_,
    (output_determined H0 libFailZero () stk0 0 []).2 (by simp [WritesResults, libFailZero]) stk1 1
      ["obama"]⟩
  simp only [record, main, planets, houses,
    forUpTo_eq_foldl _ 12 SE_SUN SE_TRUE_NODE _ (by decide),
    forUpTo_eq_foldl _ 12 1 12 _ (by decide)]
  decide

/-- C9 as stated fails: against a library whose position call fails and
writes nothing to `xx`, two runs in which the library is in the same state and
answers every call in the same way print different texts, because the
coordinate rows show what `xx` held when `main` started: 1.5 in one run, 0.0 in
the other. -/
theorem output_depends_on_stale_xx :
    (∀ st jd ipl iflag xx serr, (libFail.swe_calc_ut st jd ipl iflag xx serr).xx = xx) ∧
    output (record H0 libFail () stk1 0 []) ≠ output (record H0 libFail () stk0 0 []) ∧
    (record H0 libFail () stk1 0 []).filter (isPrintf fmtRow) =
      List.replicate 12 (Event.printf fmtRow [Arg.dbl 1.5, Arg.dbl 1.5, Arg.dbl 1.5, Arg.dbl 1.5]) ∧
    (record H0 libFail () stk0 0 []).filter (isPrintf fmtRow) =
      List.replicate 12 (Event.printf fmtRow [Arg.dbl 0.0, Arg.dbl 0.0, Arg.dbl 0.0, Arg.dbl 0.0]) := by
  refine ⟨fun _ _ _ _ _ _ => rfl, ?_, ?_, ?_⟩
  all_goals
    simp only [record, main, planets, houses,
      forUpTo_eq_foldl _ 12 SE_SUN SE_TRUE_NODE _ (by decide),
      forUpTo_eq_foldl _ 12 1 12 _ (by decide)]
    decide

/-- C10, as the code has it. When the library returned a negative code from
the `swe_calc_ut` call for a body `k`, `main` has just looked up the name of `k`
and printed its first 7 characters, and next prints `iret=%d, %s` (a line end
closes it) with the code and `serr`, and then the coordinate row from `xx` as
the failed call left it. When no body name and no error string that the planet
loop prints holds a newline character, the planet loop prints 12 lines and one
more for each failed position call. `iret=%d, %s` is printed as often as a
position call fails, each time right after a failed call and with the `serr` of
that call. -/
theorem failed_call_keeps_row {σ : Type} (H : Swephexp) (E : Lib σ) (s : σ)
    (stk : Locals) (argc : Int) (argv : List String) :
    (∀ jd k iflag iret xx serr,
      Event.swe_calc_ut jd k iflag iret xx serr ∈ record H E s stk argc argv →
      iret < 0 →
      ∃ name : List Char,
        [Event.swe_get_planet_name k name,
         Event.printf fmtName [Arg.str ((cstr name).take 7)],
         Event.swe_calc_ut jd k iflag iret xx serr,
         Event.printf fmtIret [Arg.int iret, Arg.str (cstr serr)],
         Event.printf fmtRow [Arg.dbl (xx 0), Arg.dbl (xx 1), Arg.dbl (xx 2), Arg.dbl (xx 3)]] <:+:
          record H E s stk argc argv) ∧
    ((∀ e ∈ planetOutput (record H E s stk argc argv), ∀ str ∈ printedStrings e,
        Char.ofNat 10 ∉ str) →
      lineCount (planetOutput (record H E s stk argc argv)) =
        12 + (record H E s stk argc argv).countP isFailedCalc) ∧
    (record H E s stk argc argv).countP (isPrintf fmtIret) =
      (record H E s stk argc argv).countP isFailedCalc ∧
    (∀ args, Event.printf fmtIret args ∈ record H E s stk argc argv →
      ∃ jd k iflag iret xx serr, iret < 0 ∧ args = [Arg.int iret, Arg.str (cstr serr)] ∧
        [Event.swe_calc_ut jd k iflag iret xx serr, Event.printf fmtIret args] <:+:
          record H E s stk argc argv) := by
  obtain ⟨jd0, rows, c, cusps, ascmc, hname, hlen, hT, -⟩ := main_shape H E s stk argc argv
  rw [hT]
  refine ⟨?_, ?_, ?_, ?_⟩
  · intro jd k iflag iret xx serr he hneg
    obtain ⟨j, r, hj, rfl, rfl, rfl, rfl, rfl, rfl⟩ := calc_event_located he
    refine ⟨r.spname, List.IsInfix.trans ?_
      (rowEvents_within jd _ H rows c cusps ascmc hname j r hj)⟩
    refine ⟨[], [], ?_⟩
    simp [rowEvents, hneg]
  · intro h
    have hp : planetOutput (prologue H jd0) = [] := rfl
    have hrows : ∀ e ∈ planetOutput (rowsEvents jd0 (Int.lor H.SEFLG_SWIEPH H.SEFLG_SPEED) 0 rows),
        ∀ str ∈ printedStrings e, Char.ofNat 10 ∉ str := by
      intro e he
      apply h
      rw [planetOutput_append, planetOutput_append]
      exact List.mem_append_left _ (List.mem_append_right _ he)
    have e2 := epilogue_countP_zero isFailedCalc c cusps ascmc hname (by simp [isFailedCalc])
      (by simp [isFailedCalc]) (by simp [isFailedCalc]) (by simp [isFailedCalc])
      (by simp [isFailedCalc]) (by simp [isFailedCalc])
    have hh : planetOutput (Event.swe_houses_ex jd0 0 21.3 (-157.86666667) 80 c cusps ascmc ::
        epilogue c cusps ascmc hname) = [] := by
      have := planetOutput_epilogue c cusps ascmc hname
      unfold planetOutput at this ⊢
      rw [List.filter_cons_of_neg (by simp [isPrintf]), this]
    have hpc : (prologue H jd0).countP isFailedCalc = 0 := rfl
    rw [planetOutput_append, planetOutput_append, hp, hh, List.nil_append, List.append_nil,
      rowsEvents_lines _ _ _ _ hrows, hlen, List.countP_append, List.countP_append,
      List.countP_cons, e2, hpc]
    simp [isFailedCalc]
  · have e1 := epilogue_countP_zero (isPrintf fmtIret) c cusps ascmc hname (fun _ => rfl)
      (fun _ => rfl) (fun _ _ => rfl) (fun _ => rfl) (fun _ => rfl) (fun _ => rfl)
    have e2 := epilogue_countP_zero isFailedCalc c cusps ascmc hname (by simp [isFailedCalc])
      (by simp [isFailedCalc]) (by simp [isFailedCalc]) (by simp [isFailedCalc])
      (by simp [isFailedCalc]) (by simp [isFailedCalc])
    have hp1 : (prologue H jd0).countP (isPrintf fmtIret) = 0 := rfl
    have hp2 : (prologue H jd0).countP isFailedCalc = 0 := rfl
    simp only [List.countP_append, List.countP_cons, e1, e2, hp1, hp2,
      rowsEvents_countP_fmtIret]
    simp [isPrintf, isFailedCalc]
  · intro args he
    simp only [List.mem_append, List.mem_cons] at he
    rcases he with (hp | hr) | hh | hep
    · have : (prologue H jd0).countP (isPrintf fmtIret) = 0 := rfl
      rw [List.countP_eq_zero] at this
      exact absurd rfl (this _ hp)
    · obtain ⟨j, r, hj, hk⟩ := mem_rowsEvents rows 0 hr
      rw [zero_add] at hk
      rcases mem_rowEvents hk with h | h | h | ⟨hneg, h⟩ | h
      · simp at h
      · simp only [Event.printf.injEq] at h
        exact absurd h.1 (by decide)
      · simp at h
      · simp only [Event.printf.injEq, true_and] at h
        refine ⟨jd0, j, Int.lor H.SEFLG_SWIEPH H.SEFLG_SPEED, r.iret, r.xx, r.serr, hneg, h,
          List.IsInfix.trans ?_
          (rowEvents_within jd0 _ H rows c cusps ascmc hname j r hj)⟩
        refine ⟨[Event.swe_get_planet_name j r.spname,
          Event.printf fmtName [Arg.str ((cstr r.spname).take 7)]],
          [Event.printf fmtRow [Arg.dbl (r.xx 0), Arg.dbl (r.xx 1), Arg.dbl (r.xx 2),
            Arg.dbl (r.xx 3)]], ?_⟩
        simp [rowEvents, hneg, h]
      · simp only [Event.printf.injEq] at h
        exact absurd h.1 (by decide)
    · simp at hh
    · have := epilogue_countP_zero (isPrintf fmtIret) c cusps ascmc hname (fun _ => rfl)
        (fun _ => rfl) (fun _ _ => rfl) (fun _ => rfl) (fun _ => rfl) (fun _ => rfl)
      rw [List.countP_eq_zero] at this
      exact absurd rfl (this _ hep)

/-- C10, as the code has it, at a run in which every position call fails with
the error string `no file`: no printed string holds a newline character, twelve
calls fail, and the planet loop prints 24 lines; the failed call for the Sun
stands between the name `true No` and the diagnostic and the row. -/
theorem failed_call_keeps_row_witness :
    (record H0 libFail () stk0 0 []).countP isFailedCalc = 12 ∧
    lineCount (planetOutput (record H0 libFail () stk0 0 [])) = 24 ∧
    ∃ name : List Char,
      [Event.swe_get_planet_name 0 name,
       Event.printf fmtName [Arg.str ((cstr name).take 7)],
       Event.swe_calc_ut 2437516.725 0 258 (-1) stk0.xx "no file".toList,
       Event.printf fmtIret [Arg.int (-1), Arg.str (cstr "no file".toList)],
       Event.printf fmtRow [Arg.dbl (stk0.xx 0), Arg.dbl (stk0.xx 1), Arg.dbl (stk0.xx 2),
         Arg.dbl (stk0.xx 3)]] <:+: record H0 libFail () stk0 0 [] := by
  have hcount : (record H0 libFail () stk0 0 []).countP isFailedCalc = 12 := by
    simp only [record, main, planets, houses,
      forUpTo_eq_foldl _ 12 SE_SUN SE_TRUE_NODE _ (by decide),
      forUpTo_eq_foldl _ 12 1 12 _ (by decide)]
    decide
  have hlines := (failed_call_keeps_row H0 libFail () stk0 0 []).2.1 (by
    simp only [record, main, planets, houses,
      forUpTo_eq_foldl _ 12 SE_SUN SE_TRUE_NODE _ (by decide),
      forUpTo_eq_foldl _ 12 1 12 _ (by decide)]
    decide)
  rw [hcount] at hlines
  refine ⟨hcount, hlines, ?_⟩
  exact (failed_call_keeps_row H0 libFail () stk0 0 []).1 2437516.725 0 258 (-1) stk0.xx
    "no file".toList
    (by
      simp only [record, main, planets, houses,
        forUpTo_eq_foldl _ 12 SE_SUN SE_TRUE_NODE _ (by decide),
        forUpTo_eq_foldl _ 12 1 12 _ (by decide)]
      decide)
    (by decide)

/-- C10 as stated fails: against a library that calls every body `true Node`
and whose position call fails for the Sun only and leaves the two-line error
string `a`, newline, `b` in `serr`, the name printed before the diagnostic is
`true No`, not the name `true Node` that the lookup returned, and one position
call fails while the planet loop prints 14 lines, not 12 + 1. -/
theorem line_count_refuted :
    Event.swe_get_planet_name 0 "true Node".toList ∈ record H0 libTwoLines () stk0 0 [] ∧
    Event.printf fmtName [Arg.str "true Node".toList] ∉ record H0 libTwoLines () stk0 0 [] ∧
    Event.printf fmtName [Arg.str "true No".toList] ∈ record H0 libTwoLines () stk0 0 [] ∧
    (record H0 libTwoLines () stk0 0 []).countP isFailedCalc = 1 ∧
    lineCount (planetOutput (record H0 libTwoLines () stk0 0 [])) = 14 ∧
    lineCount (planetOutput (record H0 libTwoLines () stk0 0 [])) ≠
      12 + (record H0 libTwoLines () stk0 0 []).countP isFailedCalc := by
  simp only [record, main, planets, houses,
    forUpTo_eq_foldl _ 12 SE_SUN SE_TRUE_NODE _ (by decide),
    forUpTo_eq_foldl _ 12 1 12 _ (by decide)]
  decide

end Obama
